import Mathlib

/-!
SSD1306 driver: framebuffer, dirty rectangle, rotation and bus framing.

A shallow embedding of `src/ssd1306.h` and `src/ssd1306.cpp`.

Conventions of the embedding:

* `uint8_t`, `uint16_t` and `size_t` values are natural numbers; every narrowing
  conversion of the C++ code is written out (`u8`, `size_t_of_int`).
* `int` is the 16 bit two's complement `int` of the AVR targets of the library;
  the bitwise operators on `int` act on the 16 bit pattern (`int_or`, `int_and`,
  `int_not`). No `int` expression of the driver leaves the range of that type
  (the largest is `31 * 255 + 255`).
* `m_buffer` is a raw pointer in the source. It is a list here; a read past the
  end of the list yields `0` and a write past the end is dropped.
* The `TwoWire` object behind `m_i2c_library` is an external collaborator. It is
  a record of the calls made so far together with two response functions of that
  history, so that every deterministic transport is an instance.
-/

/-! ## Machine integers -/

/-- Width in bits of `int` (and of `size_t`) on the AVR targets. -/
def INT_BITS : Nat := 16

/-- Width in bits of `size_t`. -/
def SIZE_BITS : Nat := 16

/-- Conversion of an `int` value to `uint8_t`. -/
def u8 (v : Int) : Nat := (v % 256).toNat

/-- Conversion of an `int` value to `size_t`. -/
def size_t_of_int (v : Int) : Nat := (v % 2 ^ SIZE_BITS).toNat

/-- Bit pattern of an `int`. -/
def int_bits (v : Int) : Nat := (v % 2 ^ INT_BITS).toNat

/-- The `int` with a given bit pattern. -/
def int_of_bits (n : Nat) : Int :=
  if n < 2 ^ (INT_BITS - 1) then (n : Int) else (n : Int) - 2 ^ INT_BITS

/-- Operator `|` on `int`. -/
def int_or (a b : Int) : Int := int_of_bits (int_bits a ||| int_bits b)

/-- Operator `&` on `int`. -/
def int_and (a b : Int) : Int := int_of_bits (int_bits a &&& int_bits b)

/-- Operator `~` on `int`. -/
def int_not (a : Int) : Int := int_of_bits (2 ^ INT_BITS - 1 - int_bits a)

/-- Value of `EINVAL` in `errno.h`. -/
def EINVAL_errno : Int := 22

/-- Value of `EIO` in `errno.h`. -/
def EIO_errno : Int := 5

/-! ## The bus transport -/

/-- One call on the `TwoWire` object. -/
inductive WireCall where
  | beginTransmission (address : Nat)
  | write (data : Nat)
  | write_buffer (data : List Nat) (quantity : Nat)
  | endTransmission (sendStop : Bool)
  deriving DecidableEq, Repr

/-- The `TwoWire` object: the calls received so far (oldest first), the number of
bytes `write(data, quantity)` reports as accepted and the status
`endTransmission` reports, both as functions of the calls received up to and
including the one answered. -/
structure TwoWire where
  calls : List WireCall
  accepted : List WireCall → Nat
  status : List WireCall → Nat

namespace TwoWire

/-- `TwoWire::beginTransmission(address)`. -/
def beginTransmission (w : TwoWire) (address : Nat) : TwoWire :=
  { w with calls := w.calls ++ [WireCall.beginTransmission address] }

/-- `TwoWire::write(data)`, whose return value the driver drops. -/
def write (w : TwoWire) (data : Nat) : TwoWire :=
  { w with calls := w.calls ++ [WireCall.write data] }

/-- `TwoWire::write(data, quantity)`: returns the number of bytes accepted. -/
def write_buffer (w : TwoWire) (data : List Nat) (quantity : Nat) : Nat × TwoWire :=
  let calls := w.calls ++ [WireCall.write_buffer data quantity]
  (w.accepted calls, { w with calls := calls })

/-- `TwoWire::endTransmission(sendStop)`: returns the bus status, `0` on success. -/
def endTransmission (w : TwoWire) (sendStop : Bool) : Nat × TwoWire :=
  let calls := w.calls ++ [WireCall.endTransmission sendStop]
  (w.status calls, { w with calls := calls })

end TwoWire

/-- A transport that accepts every byte offered and ends every transaction with
status `0`. -/
def TwoWire.accepts_everything (w : TwoWire) : Prop :=
  (∀ calls data quantity,
    w.accepted (calls ++ [WireCall.write_buffer data quantity]) = quantity) ∧
  (∀ calls, w.status calls = 0)

/-- The transport `w` after it received the further calls `new_calls`. -/
def TwoWire.advance (w : TwoWire) (new_calls : List WireCall) : TwoWire :=
  { w with calls := w.calls ++ new_calls }

/-! ## The driver object -/

/-- The enumeration `ssd1306::interface`. -/
inductive interface where
  | INTERFACE_NONE
  | INTERFACE_I2C
  | INTERFACE_SPI_4WIRES
  | INTERFACE_SPI_3WIRES
  deriving DecidableEq, Repr

/-- Data members of `class ssd1306`, with the member `rotation` it inherits from
`Adafruit_GFX`. `m_i2c_library` is the transport the pointer refers to. -/
@[ext]
structure ssd1306 where
  rotation : Nat
  m_active_width : Nat
  m_active_height : Nat
  m_i2c_library : TwoWire
  m_i2c_address : Nat
  m_buffer : List Nat
  m_interface : interface
  m_redraw_x_panel_min : Nat
  m_redraw_x_panel_max : Nat
  m_redraw_y_panel_min : Nat
  m_redraw_y_panel_max : Nat

namespace ssd1306

/-- The dirty rectangle `(x_min, x_max, y_min, y_max)` of a driver. -/
def redraw (s : ssd1306) : Nat × Nat × Nat × Nat :=
  (s.m_redraw_x_panel_min, s.m_redraw_x_panel_max, s.m_redraw_y_panel_min, s.m_redraw_y_panel_max)

/-- `ssd1306::m_rotation_handle`: `Except.ok (x_panel, y_panel)` when the function
returns `0`, `Except.error r` when it returns the negative value `r`. -/
def m_rotation_handle (s : ssd1306) (x y : Nat) : Except Int (Nat × Nat) :=
  match s.rotation with
  | 0 =>
    if x ≥ s.m_active_width ∨ y ≥ s.m_active_height then Except.error (-EINVAL_errno)
    else Except.ok (x, y)
  | 1 =>
    if x ≥ s.m_active_height ∨ y ≥ s.m_active_width then Except.error (-EINVAL_errno)
    else Except.ok (u8 ((s.m_active_width : Int) - y - 1), x)
  | 2 =>
    if x ≥ s.m_active_width ∨ y ≥ s.m_active_height then Except.error (-EINVAL_errno)
    else Except.ok (u8 ((s.m_active_width : Int) - x - 1), u8 ((s.m_active_height : Int) - y - 1))
  | 3 =>
    if x ≥ s.m_active_height ∨ y ≥ s.m_active_width then Except.error (-EINVAL_errno)
    else Except.ok (y, u8 ((s.m_active_height : Int) - x - 1))
  | _ => Except.error (-EINVAL_errno)

/-- The expression `color ? (page | (1 << (y_panel & 7))) : (page & ~(1 << (y_panel & 7)))`
of `pixel_set`, converted to the `uint8_t` it initialises. -/
def page_modified (page y_panel color : Nat) : Nat :=
  if color ≠ 0 then u8 (int_or (page : Int) ((1 <<< (y_panel &&& 7) : Nat) : Int))
  else u8 (int_and (page : Int) (int_not ((1 <<< (y_panel &&& 7) : Nat) : Int)))

/-- The initialiser of the `uint8_t page_index` of `pixel_set`. -/
def page_index (s : ssd1306) (x_panel y_panel : Nat) : Nat :=
  u8 ((x_panel : Int) + ((y_panel : Int) / 8) * (s.m_active_width : Int))

/-- `ssd1306::pixel_set`: the returned `int` and the driver afterwards. -/
def pixel_set (s : ssd1306) (x y color : Nat) : Int × ssd1306 :=
  match s.m_rotation_handle x y with
  | Except.error _ => (-EINVAL_errno, s)
  | Except.ok (x_panel, y_panel) =>
    let page_index := s.page_index x_panel y_panel
    let page := s.m_buffer.getD page_index 0
    let page_modified := page_modified page y_panel color
    if page_modified ≠ page then
      (0, { s with
        m_buffer := s.m_buffer.set page_index page_modified
        m_redraw_x_panel_min :=
          if x_panel < s.m_redraw_x_panel_min then x_panel else s.m_redraw_x_panel_min
        m_redraw_x_panel_max :=
          if x_panel > s.m_redraw_x_panel_max then x_panel else s.m_redraw_x_panel_max
        m_redraw_y_panel_min :=
          if y_panel < s.m_redraw_y_panel_min then y_panel else s.m_redraw_y_panel_min
        m_redraw_y_panel_max :=
          if y_panel > s.m_redraw_y_panel_max then y_panel else s.m_redraw_y_panel_max })
    else (0, s)

/-- `ssd1306::command_send(command, parameter1, parameter2)`. -/
def command_send2 (s : ssd1306) (command parameter1 parameter2 : Nat) : Int × ssd1306 :=
  match s.m_interface with
  | interface.INTERFACE_I2C =>
    let w := s.m_i2c_library.beginTransmission s.m_i2c_address
    let w := w.write 0x00
    let w := w.write command
    let w := w.write parameter1
    let w := w.write parameter2
    let (res, w) := w.endTransmission true
    if res ≠ 0 then (-EIO_errno, { s with m_i2c_library := w })
    else (0, { s with m_i2c_library := w })
  | _ => (-EINVAL_errno, s)

/-- The `for (size_t i = 0; i < length;)` loop of `ssd1306::data_send(data, length)`
from the value `i` on. `data` is the memory readable from the pointer `data`.
Every iteration uses one unit of `fuel`; `none` means the fuel ran out before the
loop ended. -/
def data_send_loop (address : Nat) (data : List Nat) (length : Nat) :
    Nat → TwoWire → Nat → Option (Int × TwoWire)
  | fuel, w, i =>
    if i < length then
      match fuel with
      | 0 => none
      | fuel + 1 =>
        let w := w.beginTransmission address
        let w := w.write 0x40
        let (n, w) := w.write_buffer ((data.drop i).take (length - i)) (length - i)
        let i := (i + n) % 2 ^ SIZE_BITS
        let (res, w) := w.endTransmission true
        if res ≠ 0 then some (-EIO_errno, w)
        else data_send_loop address data length fuel w i
    else some (0, w)

/-- `ssd1306::data_send(data, length)`. -/
def data_send (fuel : Nat) (s : ssd1306) (data : List Nat) (length : Nat) :
    Option (Int × ssd1306) :=
  match s.m_interface with
  | interface.INTERFACE_I2C =>
    match data_send_loop s.m_i2c_address data length fuel s.m_i2c_library 0 with
    | none => none
    | some (res, w) => some (res, { s with m_i2c_library := w })
  | _ => some (-EINVAL_errno, s)

/-- `ssd1306::clear`. The counters `page` and `column` are `uint8_t`; they stay
below `m_active_height / 8` and `m_active_width`, so they never wrap. -/
def clear (s : ssd1306) : Int × ssd1306 :=
  let buffer := (List.range (s.m_active_height / 8)).foldl
    (fun buffer page => (List.range s.m_active_width).foldl
      (fun buffer column => buffer.set (column + page * s.m_active_width) 0) buffer)
    s.m_buffer
  (0, { s with
    m_buffer := buffer
    m_redraw_x_panel_min := 0
    m_redraw_x_panel_max := u8 ((s.m_active_width : Int) - 1)
    m_redraw_y_panel_min := 0
    m_redraw_y_panel_max := u8 ((s.m_active_height : Int) - 1) })

/-- The body of the `for` loop of `display` run for each page of `pages` in turn;
the value `data_send` returns is dropped, as in the source. -/
def display_loop (fuel column_min column_max : Nat) : List Nat → ssd1306 → Option ssd1306
  | [], s => some s
  | page :: pages, s =>
    match data_send fuel s (s.m_buffer.drop (page * s.m_active_width + column_min))
        (size_t_of_int (((column_max : Int) - (column_min : Int)) + 1)) with
    | none => none
    | some (_, s1) => display_loop fuel column_min column_max pages s1

/-- `ssd1306::display`; `fuel` bounds the iterations of each `data_send` call. The
loop `for (uint8_t page = page_min; page <= page_max; page++)` visits
`page_min, ..., page_max` (`page_max` is at most `255 / 8`, the counter cannot
wrap). -/
def display (fuel : Nat) (s : ssd1306) : Option (Int × ssd1306) :=
  let page_min := u8 ((s.m_redraw_y_panel_min : Int) / 8)
  let page_max := u8 ((s.m_redraw_y_panel_max : Int) / 8)
  let column_min := s.m_redraw_x_panel_min
  let column_max := s.m_redraw_x_panel_max
  match s.m_interface with
  | interface.INTERFACE_I2C =>
    let res : Int := 0
    let (r1, s1) := s.command_send2 0x21 column_min column_max
    let res := int_or res r1
    let (r2, s2) := s1.command_send2 0x22 page_min page_max
    let res := int_or res r2
    if res ≠ 0 then some (-EIO_errno, s2)
    else
      match display_loop fuel column_min column_max
          (List.range' page_min (page_max + 1 - page_min)) s2 with
      | none => none
      | some s3 =>
        some (0, { s3 with
          m_redraw_x_panel_min := u8 ((s3.m_active_width : Int) - 1)
          m_redraw_x_panel_max := 0
          m_redraw_y_panel_min := u8 ((s3.m_active_height : Int) - 1)
          m_redraw_y_panel_max := 0 })
  | _ => some (-EINVAL_errno, s)

/-- The dirty rectangle widened to contain the panel point `(x_panel, y_panel)`. -/
def widened (s : ssd1306) (x_panel y_panel : Nat) : Nat × Nat × Nat × Nat :=
  (min x_panel s.m_redraw_x_panel_min, max x_panel s.m_redraw_x_panel_max,
    min y_panel s.m_redraw_y_panel_min, max y_panel s.m_redraw_y_panel_max)

/-- The driver `s` with its transport replaced. -/
def with_bus (s : ssd1306) (w : TwoWire) : ssd1306 :=
  { s with m_i2c_library := w }

/-- The calls of one command transaction with two parameters. -/
def command_frame (address command parameter1 parameter2 : Nat) : List WireCall :=
  [WireCall.beginTransmission address, WireCall.write 0x00, WireCall.write command,
    WireCall.write parameter1, WireCall.write parameter2, WireCall.endTransmission true]

/-- The calls of one data transaction offering `data`. -/
def data_frame (address : Nat) (data : List Nat) (quantity : Nat) : List WireCall :=
  [WireCall.beginTransmission address, WireCall.write 0x40,
    WireCall.write_buffer data quantity, WireCall.endTransmission true]

end ssd1306

/-! ## Transports and panels used as concrete inputs -/

/-- Response of a transport that accepts the whole buffer offered to it. -/
def accept_all (calls : List WireCall) : Nat :=
  match calls.getLast? with
  | some (WireCall.write_buffer _ quantity) => quantity
  | _ => 0

/-- A transport on which every transaction succeeds. -/
def wire_ok : TwoWire := TwoWire.mk [] accept_all (fun _ => 0)

/-- A transport that acknowledges command transactions and reports status `2`
at the end of every transaction that carries the data prefix `0x40`. -/
def wire_data_nack : TwoWire :=
  TwoWire.mk [] accept_all (fun calls => if WireCall.write 0x40 ∈ calls then 2 else 0)

/-- A driver after `setup` on a panel of the given size: blank buffer of
`width * (height / 8)` bytes, I2C interface, empty dirty rectangle. -/
def panel (width height rotation : Nat) (wire : TwoWire) : ssd1306 :=
  { rotation := rotation
    m_active_width := width
    m_active_height := height
    m_i2c_library := wire
    m_i2c_address := 0x3C
    m_buffer := List.replicate (width * (height / 8)) 0
    m_interface := interface.INTERFACE_I2C
    m_redraw_x_panel_min := u8 ((width : Int) - 1)
    m_redraw_x_panel_max := 0
    m_redraw_y_panel_min := u8 ((height : Int) - 1)
    m_redraw_y_panel_max := 0 }

/-- The driver `s` with the dirty rectangle replaced. -/
def with_redraw (s : ssd1306) (x_min x_max y_min y_max : Nat) : ssd1306 :=
  { s with
    m_redraw_x_panel_min := x_min
    m_redraw_x_panel_max := x_max
    m_redraw_y_panel_min := y_min
    m_redraw_y_panel_max := y_max }

/-- The driver `s` with the framebuffer contents replaced. -/
def with_buffer (s : ssd1306) (buffer : List Nat) : ssd1306 :=
  { s with m_buffer := buffer }

/-! ## Construction, setup and the remaining entry points -/

/-- One call of the Arduino core outside the bus: `pinMode`, `digitalWrite`,
`delay`. -/
inductive ArduinoCall where
  | pinMode (pin : Int) (mode : Nat)
  | digitalWrite (pin : Int) (val : Nat)
  | delay (ms : Nat)
  deriving DecidableEq, Repr

/-- Value of `OUTPUT` in `Arduino.h`. -/
def ArduinoCall.OUTPUT : Nat := 1

/-- Value of `LOW` in `Arduino.h`. -/
def ArduinoCall.LOW : Nat := 0

/-- Value of `HIGH` in `Arduino.h`. -/
def ArduinoCall.HIGH : Nat := 1

/-- The transport field of a driver on which `setup` has not run yet. The
pointer is `NULL` there; no member function reads it while `m_interface` is
`INTERFACE_NONE`. -/
def TwoWire.unset : TwoWire := TwoWire.mk [] (fun _ => 0) (fun _ => 0)

namespace ssd1306

/-- The constructor `ssd1306(width, height)` with the default member
initialisers of the class; `Adafruit_GFX(width, height)` sets `rotation` to 0.
The `NULL` buffer is the empty list. -/
def construct (width height : Nat) : ssd1306 :=
  { rotation := 0
    m_active_width := width
    m_active_height := height
    m_i2c_library := TwoWire.unset
    m_i2c_address := 0
    m_buffer := []
    m_interface := interface.INTERFACE_NONE
    m_redraw_x_panel_min := u8 ((width : Int) - 1)
    m_redraw_x_panel_max := 0
    m_redraw_y_panel_min := u8 ((height : Int) - 1)
    m_redraw_y_panel_max := 0 }

/-- `ssd1306::command_send(command)`. -/
def command_send (s : ssd1306) (command : Nat) : Int × ssd1306 :=
  match s.m_interface with
  | interface.INTERFACE_I2C =>
    let w := s.m_i2c_library.beginTransmission s.m_i2c_address
    let w := w.write 0x00
    let w := w.write command
    let (res, w) := w.endTransmission true
    if res ≠ 0 then (-EIO_errno, { s with m_i2c_library := w })
    else (0, { s with m_i2c_library := w })
  | _ => (-EINVAL_errno, s)

/-- `ssd1306::command_send(command, parameter)`. -/
def command_send1 (s : ssd1306) (command parameter : Nat) : Int × ssd1306 :=
  match s.m_interface with
  | interface.INTERFACE_I2C =>
    let w := s.m_i2c_library.beginTransmission s.m_i2c_address
    let w := w.write 0x00
    let w := w.write command
    let w := w.write parameter
    let (res, w) := w.endTransmission true
    if res ≠ 0 then (-EIO_errno, { s with m_i2c_library := w })
    else (0, { s with m_i2c_library := w })
  | _ => (-EINVAL_errno, s)

/-- `ssd1306::data_send(data)` for one byte. -/
def data_send_byte (s : ssd1306) (data : Nat) : Int × ssd1306 :=
  match s.m_interface with
  | interface.INTERFACE_I2C =>
    let w := s.m_i2c_library.beginTransmission s.m_i2c_address
    let w := w.write 0x40
    let w := w.write data
    let (res, w) := w.endTransmission true
    if res ≠ 0 then (-EIO_errno, { s with m_i2c_library := w })
    else (0, { s with m_i2c_library := w })
  | _ => (-EINVAL_errno, s)

/-- The statement `res |= f(...)` of `setup` on the pair of `res` and the
driver. -/
def res_or (st : Int × ssd1306) (f : ssd1306 → Int × ssd1306) : Int × ssd1306 :=
  (int_or st.1 (f st.2).1, (f st.2).2)

/-- `ssd1306::setup`: the returned `int`, the driver afterwards and the calls
made on the reset pin. The counters `i` and `j` of the two loops are `size_t`. -/
def setup (s : ssd1306) (i2c_library : TwoWire) (i2c_address : Nat) (pin_res : Int)
    (buffer : List Nat) : Int × ssd1306 × List ArduinoCall :=
  if i2c_address ≠ 0x3C ∧ i2c_address ≠ 0x3D then (-EINVAL_errno, s, [])
  else
    let s := { s with
      m_interface := interface.INTERFACE_I2C
      m_i2c_library := i2c_library
      m_i2c_address := i2c_address
      m_buffer := buffer }
    let pins := [ArduinoCall.pinMode pin_res ArduinoCall.OUTPUT,
      ArduinoCall.digitalWrite pin_res ArduinoCall.LOW, ArduinoCall.delay 1,
      ArduinoCall.digitalWrite pin_res ArduinoCall.HIGH, ArduinoCall.delay 1]
    let st : Int × ssd1306 := (0, s)
    let st := res_or st (fun s => s.command_send 0xAE)
    let st := res_or st (fun s => s.command_send1 0xD5 0x80)
    let st := res_or st (fun s => s.command_send1 0xA8 (u8 ((s.m_active_height : Int) - 1)))
    let st := res_or st (fun s => s.command_send1 0xD3 0x00)
    let st := res_or st (fun s => s.command_send (u8 (int_or 0x40 0x00)))
    let st := res_or st (fun s => s.command_send1 0x8D 0x14)
    let st := res_or st (fun s => s.command_send1 0x20 0x00)
    let st := res_or st (fun s => s.command_send (u8 (int_or 0xA0 0x01)))
    let st := res_or st (fun s => s.command_send 0xC8)
    let st := res_or st (fun s => s.command_send1 0xDA 0x02)
    let st := res_or st (fun s => s.command_send1 0x81 0x64)
    let st := res_or st (fun s => s.command_send1 0xD9 0xF1)
    let st := res_or st (fun s => s.command_send1 0xDB 0x20)
    let st := res_or st (fun s => s.command_send 0xA4)
    let st := res_or st (fun s => s.command_send 0xA6)
    let st := res_or st (fun s =>
      s.command_send2 0x21 0 (u8 ((s.m_active_width : Int) - 1)))
    let st := res_or st (fun s =>
      s.command_send2 0x22 0 (u8 ((s.m_active_height : Int) / 8 - 1)))
    let st := (List.range (s.m_active_height / 8)).foldl
      (fun st _ => (List.range s.m_active_width).foldl
        (fun st _ => res_or st (fun s => s.data_send_byte 0x00)) st) st
    let st := res_or st (fun s => s.command_send 0xAF)
    if st.1 ≠ 0 then (-EIO_errno, st.2, pins) else (0, st.2, pins)

/-- `ssd1306::brightness_set`, with the `float` argument taken as an exact
rational number: `ratio * 255` is exact and the cast to `uint8_t` drops the
fraction. -/
def brightness_set (s : ssd1306) (ratio : ℚ) : Int × ssd1306 :=
  if ratio < 0 ∨ ratio > 1 then (-EINVAL_errno, s)
  else s.command_send1 0x81 (u8 ⌊ratio * 255⌋)

/-- `ssd1306::drawPixel`: the `int16_t` arguments are converted to the `uint8_t`
parameters of `pixel_set`, whose result is dropped. -/
def drawPixel (s : ssd1306) (x y : Int) (color : Nat) : ssd1306 :=
  (s.pixel_set (u8 x) (u8 y) color).2

/-- `pixel_set` called for each `(x, y, color)` of a list in turn. -/
def pixel_sets (s : ssd1306) (calls : List (Nat × Nat × Nat)) : ssd1306 :=
  calls.foldl (fun s c => (s.pixel_set c.1 c.2.1 c.2.2).2) s

/-- The calls of one command transaction without parameter. -/
def command_frame0 (address command : Nat) : List WireCall :=
  [WireCall.beginTransmission address, WireCall.write 0x00, WireCall.write command,
    WireCall.endTransmission true]

/-- The calls of one command transaction with one parameter. -/
def command_frame1 (address command parameter : Nat) : List WireCall :=
  [WireCall.beginTransmission address, WireCall.write 0x00, WireCall.write command,
    WireCall.write parameter, WireCall.endTransmission true]

/-- The calls of one data transaction carrying a single byte. -/
def data_byte_frame (address data : Nat) : List WireCall :=
  [WireCall.beginTransmission address, WireCall.write 0x40, WireCall.write data,
    WireCall.endTransmission true]

end ssd1306

/-- Whether the `endTransmission` closing one of the transactions `frames`,
issued in turn on the transport `w`, reports a status other than `0`. -/
def TwoWire.any_failed (w : TwoWire) : List (List WireCall) → Bool
  | [] => false
  | frame :: frames =>
    (w.status (w.calls ++ frame) != 0) || TwoWire.any_failed (w.advance frame) frames

namespace ssd1306

/-- The calls of the transactions `data_send(data, length)` issues from the
offset `i` on when the transport accepts `sizes` bytes in turn: each transaction
offers the `length - i` bytes that start at the current offset, and the offset
then advances by the number of bytes accepted. -/
def data_transactions (address : Nat) (data : List Nat) (length : Nat) :
    Nat → List Nat → List WireCall
  | _, [] => []
  | i, a :: sizes =>
    data_frame address ((data.drop i).take (length - i)) (length - i)
      ++ data_transactions address data length (i + a) sizes

/-- The bytes the transport accepted, transaction by transaction: `a` bytes from
the current offset, for each `a` of `sizes`. -/
def accepted_chunks (data : List Nat) : Nat → List Nat → List (List Nat)
  | _, [] => []
  | i, a :: sizes => (data.drop i).take a :: accepted_chunks data (i + a) sizes

/-- Every number of `sizes` is the number of bytes the transport `w` reported as
accepted by the `write(data, quantity)` call of the corresponding transaction. -/
def reported_sizes (address : Nat) (data : List Nat) (length : Nat) :
    TwoWire → Nat → List Nat → Prop
  | _, _, [] => True
  | w, i, a :: sizes =>
    a = w.accepted (w.calls ++ [WireCall.beginTransmission address, WireCall.write 0x40,
        WireCall.write_buffer ((data.drop i).take (length - i)) (length - i)]) ∧
    reported_sizes address data length
      (w.advance (data_frame address ((data.drop i).take (length - i)) (length - i)))
      (i + a) sizes

/-- The status the transport `w` reported at the `endTransmission` of each of
the transactions of `data_transactions`. -/
def end_statuses (address : Nat) (data : List Nat) (length : Nat) :
    TwoWire → Nat → List Nat → List Nat
  | _, _, [] => []
  | w, i, a :: sizes =>
    w.status (w.calls ++ data_frame address ((data.drop i).take (length - i)) (length - i))
      :: end_statuses address data length
        (w.advance (data_frame address ((data.drop i).take (length - i)) (length - i)))
        (i + a) sizes

/-- The panel points `(x_panel, y_panel)` of those calls of `pixel_sets` that
changed the buffer, in call order. -/
def changed_points : ssd1306 → List (Nat × Nat × Nat) → List (Nat × Nat)
  | _, [] => []
  | s, c :: calls =>
    match s.m_rotation_handle c.1 c.2.1 with
    | Except.ok p =>
      if (s.pixel_set c.1 c.2.1 c.2.2).2.m_buffer ≠ s.m_buffer then
        p :: changed_points (s.pixel_set c.1 c.2.1 c.2.2).2 calls
      else changed_points (s.pixel_set c.1 c.2.1 c.2.2).2 calls
    | Except.error _ => changed_points (s.pixel_set c.1 c.2.1 c.2.2).2 calls

end ssd1306

/-- Response of a transport that accepts at most `k` bytes per `write` call. -/
def accept_at_most (k : Nat) (calls : List WireCall) : Nat :=
  match calls.getLast? with
  | some (WireCall.write_buffer _ quantity) => min k quantity
  | _ => 0

/-- A transport that accepts at most two bytes per transaction and on which
every transaction succeeds. -/
def wire_two_bytes : TwoWire := TwoWire.mk [] (accept_at_most 2) (fun _ => 0)

/-- A transport on which the third transaction, and only it, ends with
status `4`. -/
def wire_third_fails : TwoWire :=
  TwoWire.mk [] accept_all
    (fun calls => if calls.count (WireCall.endTransmission true) = 3 then 4 else 0)

/-! ## Arithmetic of the narrowing conversions -/

theorem u8_lt (v : Int) : u8 v < 256 := by
  unfold u8; omega

theorem u8_natCast (n : Nat) (h : n < 256) : u8 (n : Int) = n := by
  unfold u8; omega

theorem u8_sub_sub_one (a b : Nat) (hb : b < a) (ha : a < 256) :
    u8 ((a : Int) - b - 1) = a - b - 1 := by
  unfold u8; omega

theorem u8_div_eight (n : Nat) (h : n < 256) : u8 ((n : Int) / 8) = n / 8 := by
  unfold u8; omega

/-! ## Bit arithmetic of `pixel_set` on bytes -/

set_option maxRecDepth 1000000 in
theorem byte_or_idem : ∀ p < 256, ∀ k < 8,
    u8 (int_or ((u8 (int_or (p : Nat) ((1 <<< k : Nat) : Int)) : Nat) : Int)
        ((1 <<< k : Nat) : Int))
      = u8 (int_or (p : Nat) ((1 <<< k : Nat) : Int)) := by
  decide

set_option maxRecDepth 1000000 in
theorem byte_andnot_idem : ∀ p < 256, ∀ k < 8,
    u8 (int_and ((u8 (int_and (p : Nat) (int_not ((1 <<< k : Nat) : Int))) : Nat) : Int)
        (int_not ((1 <<< k : Nat) : Int)))
      = u8 (int_and (p : Nat) (int_not ((1 <<< k : Nat) : Int))) := by
  decide

set_option maxRecDepth 1000000 in
theorem byte_or_testBit : ∀ p < 256, ∀ k < 8,
    (u8 (int_or (p : Nat) ((1 <<< k : Nat) : Int))).testBit k = true := by
  decide

set_option maxRecDepth 1000000 in
theorem byte_andnot_testBit : ∀ p < 256, ∀ k < 8,
    (u8 (int_and (p : Nat) (int_not ((1 <<< k : Nat) : Int)))).testBit k = false := by
  decide

set_option maxRecDepth 1000000 in
theorem byte_or_fixed : ∀ p < 256, ∀ k < 8, p.testBit k = true →
    u8 (int_or (p : Nat) ((1 <<< k : Nat) : Int)) = p := by
  decide

set_option maxRecDepth 1000000 in
theorem byte_andnot_fixed : ∀ p < 256, ∀ k < 8, p.testBit k = false →
    u8 (int_and (p : Nat) (int_not ((1 <<< k : Nat) : Int))) = p := by
  decide

theorem and_seven_lt (y : Nat) : y &&& 7 < 8 :=
  Nat.lt_succ_of_le Nat.and_le_right

theorem and_seven_eq_mod (y : Nat) : y &&& 7 = y % 8 :=
  Nat.and_pow_two_sub_one_eq_mod y 3

namespace ssd1306

theorem page_modified_lt (page y_panel color : Nat) :
    page_modified page y_panel color < 256 := by
  unfold page_modified; split <;> exact u8_lt _

theorem page_modified_idem (page y_panel color : Nat) (hp : page < 256) :
    page_modified (page_modified page y_panel color) y_panel color
      = page_modified page y_panel color := by
  unfold page_modified
  by_cases hc : color ≠ 0
  · simp only [if_pos hc]
    exact byte_or_idem page hp _ (and_seven_lt y_panel)
  · simp only [if_neg hc]
    exact byte_andnot_idem page hp _ (and_seven_lt y_panel)

theorem page_modified_testBit (page y_panel color : Nat) (hp : page < 256) :
    (page_modified page y_panel color).testBit (y_panel % 8) = decide (color ≠ 0) := by
  unfold page_modified
  rw [← and_seven_eq_mod]
  by_cases hc : color ≠ 0
  · rw [if_pos hc, byte_or_testBit page hp _ (and_seven_lt y_panel)]
    simp [hc]
  · rw [if_neg hc, byte_andnot_testBit page hp _ (and_seven_lt y_panel)]
    simp [hc]

theorem page_modified_fixed (page y_panel color : Nat) (hp : page < 256)
    (hbit : page.testBit (y_panel % 8) = decide (color ≠ 0)) :
    page_modified page y_panel color = page := by
  unfold page_modified
  rw [← and_seven_eq_mod] at hbit
  by_cases hc : color ≠ 0
  · rw [if_pos hc]
    exact byte_or_fixed page hp _ (and_seven_lt y_panel) (by simpa [hc] using hbit)
  · rw [if_neg hc]
    exact byte_andnot_fixed page hp _ (and_seven_lt y_panel) (by simpa [hc] using hbit)

/-- A byte read by `m_buffer[i]` is below 256 when every stored byte is. -/
theorem getD_lt (buffer : List Nat) (hb : ∀ b ∈ buffer, b < 256) (i : Nat) :
    buffer.getD i 0 < 256 := by
  by_cases hi : i < buffer.length
  · rw [List.getD_eq_getElem _ _ hi]; exact hb _ (List.getElem_mem hi)
  · rw [List.getD_eq_default _ _ (Nat.le_of_not_lt hi)]; decide

/-! ## The coordinate transform -/

/-- C2: inside the rotated canvas `m_rotation_handle` succeeds and returns
`(x, y)` for rotation 0, `(width - y - 1, x)` for rotation 1,
`(width - x - 1, height - y - 1)` for rotation 2 and `(y, height - x - 1)` for
rotation 3; the canvas is `width x height` for rotations 0 and 2 and
`height x width` for rotations 1 and 3, and no subtraction wraps. -/
theorem m_rotation_handle_closed_form (s : ssd1306) (x y : Nat)
    (hw : s.m_active_width < 256) (hh : s.m_active_height < 256) :
    (s.rotation = 0 → x < s.m_active_width → y < s.m_active_height →
      s.m_rotation_handle x y = Except.ok (x, y)) ∧
    (s.rotation = 1 → x < s.m_active_height → y < s.m_active_width →
      s.m_rotation_handle x y = Except.ok (s.m_active_width - y - 1, x)) ∧
    (s.rotation = 2 → x < s.m_active_width → y < s.m_active_height →
      s.m_rotation_handle x y
        = Except.ok (s.m_active_width - x - 1, s.m_active_height - y - 1)) ∧
    (s.rotation = 3 → x < s.m_active_height → y < s.m_active_width →
      s.m_rotation_handle x y = Except.ok (y, s.m_active_height - x - 1)) := by
  refine ⟨?_, ?_, ?_, ?_⟩ <;> intro hr hx hy
  · simp [m_rotation_handle, hr, Nat.not_le.mpr hx, Nat.not_le.mpr hy]
  · simp [m_rotation_handle, hr, Nat.not_le.mpr hx, Nat.not_le.mpr hy,
      u8_sub_sub_one _ _ hy hw]
  · simp [m_rotation_handle, hr, Nat.not_le.mpr hx, Nat.not_le.mpr hy,
      u8_sub_sub_one _ _ hx hw, u8_sub_sub_one _ _ hy hh]
  · simp [m_rotation_handle, hr, Nat.not_le.mpr hx, Nat.not_le.mpr hy,
      u8_sub_sub_one _ _ hx hh]

/-- Witness of C2 on a 128 x 64 panel at the logical point (10, 20): the four
rotations give (10, 20), (107, 10), (117, 43) and (20, 53). -/
theorem m_rotation_handle_closed_form_witness :
    (panel 128 64 0 wire_ok).m_rotation_handle 10 20 = Except.ok (10, 20) ∧
    (panel 128 64 1 wire_ok).m_rotation_handle 10 20 = Except.ok (107, 10) ∧
    (panel 128 64 2 wire_ok).m_rotation_handle 10 20 = Except.ok (117, 43) ∧
    (panel 128 64 3 wire_ok).m_rotation_handle 10 20 = Except.ok (20, 53) :=
  ⟨(m_rotation_handle_closed_form (panel 128 64 0 wire_ok) 10 20 (by decide) (by decide)).1
      rfl (by decide) (by decide),
    (m_rotation_handle_closed_form (panel 128 64 1 wire_ok) 10 20 (by decide) (by decide)).2.1
      rfl (by decide) (by decide),
    (m_rotation_handle_closed_form (panel 128 64 2 wire_ok) 10 20 (by decide) (by decide)).2.2.1
      rfl (by decide) (by decide),
    (m_rotation_handle_closed_form (panel 128 64 3 wire_ok) 10 20 (by decide) (by decide)).2.2.2
      rfl (by decide) (by decide)⟩

/-- C3: `m_rotation_handle` returns an error exactly when the rotation is not
one of 0, 1, 2, 3 or the logical coordinate is outside the rotated canvas
(`x >= width` or `y >= height` for rotations 0 and 2, `x >= height` or
`y >= width` for rotations 1 and 3); the error is `-EINVAL`, and in every other
case the call succeeds. -/
theorem m_rotation_handle_error_iff (s : ssd1306) (x y : Nat) :
    ((∃ e, s.m_rotation_handle x y = Except.error e) ↔
      (¬ (s.rotation = 0 ∨ s.rotation = 1 ∨ s.rotation = 2 ∨ s.rotation = 3) ∨
        ((s.rotation = 0 ∨ s.rotation = 2) ∧
          (x ≥ s.m_active_width ∨ y ≥ s.m_active_height)) ∨
        ((s.rotation = 1 ∨ s.rotation = 3) ∧
          (x ≥ s.m_active_height ∨ y ≥ s.m_active_width)))) ∧
    (∀ e, s.m_rotation_handle x y = Except.error e → e = -EINVAL_errno) ∧
    ((¬ ∃ e, s.m_rotation_handle x y = Except.error e) →
      ∃ p, s.m_rotation_handle x y = Except.ok p) := by
  unfold m_rotation_handle
  rcases s.rotation with _ | _ | _ | _ | n
  · by_cases h : s.m_active_width ≤ x ∨ s.m_active_height ≤ y <;> simp [h]
  · by_cases h : s.m_active_height ≤ x ∨ s.m_active_width ≤ y <;> simp [h]
  · by_cases h : s.m_active_width ≤ x ∨ s.m_active_height ≤ y <;> simp [h]
  · by_cases h : s.m_active_height ≤ x ∨ s.m_active_width ≤ y <;> simp [h]
  · simp

/-! ## Writing one pixel -/

theorem m_rotation_handle_congr (s t : ssd1306) (x y : Nat) (hr : t.rotation = s.rotation)
    (hw : t.m_active_width = s.m_active_width) (hh : t.m_active_height = s.m_active_height) :
    t.m_rotation_handle x y = s.m_rotation_handle x y := by
  unfold m_rotation_handle
  rw [hr, hw, hh]

theorem pixel_set_error (s : ssd1306) (x y color : Nat) (e : Int)
    (h : s.m_rotation_handle x y = Except.error e) :
    s.pixel_set x y color = (-EINVAL_errno, s) := by
  unfold pixel_set; rw [h]

theorem pixel_set_same (s : ssd1306) (x y color x_panel y_panel : Nat)
    (h : s.m_rotation_handle x y = Except.ok (x_panel, y_panel))
    (hp : page_modified (s.m_buffer.getD (s.page_index x_panel y_panel) 0) y_panel color
      = s.m_buffer.getD (s.page_index x_panel y_panel) 0) :
    s.pixel_set x y color = (0, s) := by
  unfold pixel_set; rw [h]
  dsimp only
  rw [if_neg (not_not.mpr hp)]

theorem pixel_set_changed (s : ssd1306) (x y color x_panel y_panel : Nat)
    (h : s.m_rotation_handle x y = Except.ok (x_panel, y_panel))
    (hp : page_modified (s.m_buffer.getD (s.page_index x_panel y_panel) 0) y_panel color
      ≠ s.m_buffer.getD (s.page_index x_panel y_panel) 0) :
    (s.pixel_set x y color).1 = 0 ∧
    (s.pixel_set x y color).2.rotation = s.rotation ∧
    (s.pixel_set x y color).2.m_active_width = s.m_active_width ∧
    (s.pixel_set x y color).2.m_active_height = s.m_active_height ∧
    (s.pixel_set x y color).2.m_i2c_library = s.m_i2c_library ∧
    (s.pixel_set x y color).2.m_i2c_address = s.m_i2c_address ∧
    (s.pixel_set x y color).2.m_interface = s.m_interface ∧
    (s.pixel_set x y color).2.m_buffer = s.m_buffer.set (s.page_index x_panel y_panel)
      (page_modified (s.m_buffer.getD (s.page_index x_panel y_panel) 0) y_panel color) ∧
    (s.pixel_set x y color).2.redraw = s.widened x_panel y_panel := by
  unfold pixel_set; rw [h]
  dsimp only
  rw [if_pos hp]
  refine ⟨rfl, rfl, rfl, rfl, rfl, rfl, rfl, rfl, ?_⟩
  simp only [redraw, widened, Prod.mk.injEq]
  refine ⟨?_, ?_, ?_, ?_⟩ <;> split_ifs <;> omega


theorem page_index_congr (s t : ssd1306) (a b : Nat) (hw : t.m_active_width = s.m_active_width) :
    t.page_index a b = s.page_index a b := by
  unfold page_index; rw [hw]

/-- C4: when the coordinate transform fails, `pixel_set` returns the negative
value `-EINVAL` and leaves the driver, in particular the framebuffer and the
dirty rectangle, exactly as it was. -/
theorem pixel_set_transform_failure (s : ssd1306) (x y color : Nat) (e : Int)
    (h : s.m_rotation_handle x y = Except.error e) :
    (s.pixel_set x y color).1 = -EINVAL_errno ∧ (s.pixel_set x y color).1 < 0 ∧
    (s.pixel_set x y color).2.m_buffer = s.m_buffer ∧
    (s.pixel_set x y color).2.redraw = s.redraw ∧
    (s.pixel_set x y color).2 = s := by
  rw [pixel_set_error s x y color e h]
  exact ⟨rfl, by simp [EINVAL_errno], rfl, rfl, rfl⟩

/-- Witness of C4: on a 16 x 16 panel the logical point (16, 3) is rejected and
the call changes nothing. -/
theorem pixel_set_transform_failure_witness :
    (panel 16 16 0 wire_ok).m_rotation_handle 16 3 = Except.error (-EINVAL_errno) ∧
    ((panel 16 16 0 wire_ok).pixel_set 16 3 1).1 < 0 ∧
    ((panel 16 16 0 wire_ok).pixel_set 16 3 1).2.m_buffer = (panel 16 16 0 wire_ok).m_buffer ∧
    ((panel 16 16 0 wire_ok).pixel_set 16 3 1).2.redraw = (panel 16 16 0 wire_ok).redraw :=
  have h := pixel_set_transform_failure (panel 16 16 0 wire_ok) 16 3 1 (-EINVAL_errno) rfl
  ⟨rfl, h.2.1, h.2.2.1, h.2.2.2.1⟩

theorem pixel_set_twice (s : ssd1306) (x y v : Nat) (hb : ∀ b ∈ s.m_buffer, b < 256) :
    (s.pixel_set x y v).2.pixel_set x y v = (0, (s.pixel_set x y v).2) ∨
    (s.pixel_set x y v).2.pixel_set x y v = (-EINVAL_errno, (s.pixel_set x y v).2) := by
  cases hm : s.m_rotation_handle x y with
  | error e =>
    right
    rw [pixel_set_error s x y v e hm]
    exact pixel_set_error s x y v e hm
  | ok p =>
    left
    obtain ⟨xp, yp⟩ := p
    by_cases hp : page_modified (s.m_buffer.getD (s.page_index xp yp) 0) yp v
        = s.m_buffer.getD (s.page_index xp yp) 0
    · rw [pixel_set_same s x y v xp yp hm hp]
      exact pixel_set_same s x y v xp yp hm hp
    · obtain ⟨-, hr, hw, hh, hl, ha, hi, hbuf, hred⟩ := pixel_set_changed s x y v xp yp hm hp
      generalize (s.pixel_set x y v).2 = t at *
      have hmt : t.m_rotation_handle x y = Except.ok (xp, yp) := by
        rw [m_rotation_handle_congr s t x y hr hw hh, hm]
      have hidx : t.page_index xp yp = s.page_index xp yp := page_index_congr s t xp yp hw
      by_cases hlen : s.page_index xp yp < s.m_buffer.length
      · apply pixel_set_same t x y v xp yp hmt
        have hget : t.m_buffer.getD (t.page_index xp yp) 0
            = page_modified (s.m_buffer.getD (s.page_index xp yp) 0) yp v := by
          rw [hidx, hbuf, List.getD_eq_getElem _ _ (by rw [List.length_set]; exact hlen),
            List.getElem_set_self]
        rw [hget]
        exact page_modified_idem _ _ _ (getD_lt _ hb _)
      · have hle : s.m_buffer.length ≤ s.page_index xp yp := Nat.le_of_not_lt hlen
        have hbuf2 : t.m_buffer = s.m_buffer := by rw [hbuf, List.set_eq_of_length_le hle]
        have hpt : page_modified (t.m_buffer.getD (t.page_index xp yp) 0) yp v
            ≠ t.m_buffer.getD (t.page_index xp yp) 0 := by
          rw [hidx, hbuf2]; exact hp
        obtain ⟨h0, hr2, hw2, hh2, hl2, ha2, hi2, hbuf3, hred2⟩ :=
          pixel_set_changed t x y v xp yp hmt hpt
        have hbuf4 : (t.pixel_set x y v).2.m_buffer = t.m_buffer := by
          rw [hbuf3, hidx, hbuf2, List.set_eq_of_length_le hle]
        have hred3 : (t.pixel_set x y v).2.redraw = t.redraw := by
          rw [hred2, hred]
          simp only [widened, redraw, Prod.mk.injEq] at hred ⊢
          obtain ⟨e1, e2, e3, e4⟩ := hred
          rw [e1, e2, e3, e4]
          simp
        simp only [redraw, Prod.mk.injEq] at hred3
        refine Prod.ext h0 (ssd1306.ext hr2 hw2 hh2 hl2 ha2 hbuf4 hi2 hred3.1 hred3.2.1
          hred3.2.2.1 hred3.2.2.2)

/-- C5: `pixel_set` is idempotent on the whole driver state. A second
`pixel_set(x, y, v)` leaves the driver reached by the first one unchanged (same
framebuffer, same dirty rectangle), and a write that sets a pixel to the value
its bit already has changes neither the buffer nor the dirty rectangle. -/
theorem pixel_set_idempotent (s : ssd1306) (x y v : Nat) (hb : ∀ b ∈ s.m_buffer, b < 256) :
    ((s.pixel_set x y v).2.pixel_set x y v).2.m_buffer = (s.pixel_set x y v).2.m_buffer ∧
    ((s.pixel_set x y v).2.pixel_set x y v).2.redraw = (s.pixel_set x y v).2.redraw ∧
    ((s.pixel_set x y v).2.pixel_set x y v).2 = (s.pixel_set x y v).2 ∧
    (∀ x_panel y_panel, s.m_rotation_handle x y = Except.ok (x_panel, y_panel) →
      (s.m_buffer.getD (s.page_index x_panel y_panel) 0).testBit (y_panel % 8)
        = decide (v ≠ 0) →
      (s.pixel_set x y v).2.m_buffer = s.m_buffer ∧ (s.pixel_set x y v).2.redraw = s.redraw) := by
  have h2 : ((s.pixel_set x y v).2.pixel_set x y v).2 = (s.pixel_set x y v).2 := by
    rcases pixel_set_twice s x y v hb with h | h <;> rw [h]
  refine ⟨by rw [h2], by rw [h2], h2, ?_⟩
  intro xp yp hm hbit
  rw [pixel_set_same s x y v xp yp hm (page_modified_fixed _ _ _ (getD_lt _ hb _) hbit)]
  exact ⟨rfl, rfl⟩

/-- Witness of C5 on a blank 16 x 16 panel: lighting (3, 9) twice gives the
same driver as lighting it once. -/
theorem pixel_set_idempotent_witness :
    (∀ b ∈ (panel 16 16 0 wire_ok).m_buffer, b < 256) ∧
    (((panel 16 16 0 wire_ok).pixel_set 3 9 1).2.pixel_set 3 9 1).2.m_buffer
      = ((panel 16 16 0 wire_ok).pixel_set 3 9 1).2.m_buffer ∧
    (((panel 16 16 0 wire_ok).pixel_set 3 9 1).2.pixel_set 3 9 1).2.redraw
      = ((panel 16 16 0 wire_ok).pixel_set 3 9 1).2.redraw :=
  ⟨by decide,
    (pixel_set_idempotent (panel 16 16 0 wire_ok) 3 9 1 (by decide)).1,
    (pixel_set_idempotent (panel 16 16 0 wire_ok) 3 9 1 (by decide)).2.1⟩

/-- An accepted logical point has its panel image inside the panel. -/
theorem m_rotation_handle_in_panel (s : ssd1306) (x y x_panel y_panel : Nat)
    (hw : s.m_active_width < 256) (hh : s.m_active_height < 256)
    (hm : s.m_rotation_handle x y = Except.ok (x_panel, y_panel)) :
    x_panel < s.m_active_width ∧ y_panel < s.m_active_height := by
  unfold m_rotation_handle at hm
  split at hm
  all_goals first
    | (split at hm
       · exact absurd hm (by simp)
       · next hc =>
         simp only [Except.ok.injEq, Prod.mk.injEq] at hm
         obtain ⟨h1, h2⟩ := hm
         subst h1 h2
         try unfold u8
         omega)
    | exact absurd hm (by simp)

/-- Every byte of the buffer is still a byte after `pixel_set`. -/
theorem pixel_set_bytes (s : ssd1306) (x y color : Nat) (hb : ∀ b ∈ s.m_buffer, b < 256) :
    ∀ b ∈ (s.pixel_set x y color).2.m_buffer, b < 256 := by
  cases hm : s.m_rotation_handle x y with
  | error e => rw [pixel_set_error s x y color e hm]; exact hb
  | ok p =>
    obtain ⟨xp, yp⟩ := p
    by_cases hp : page_modified (s.m_buffer.getD (s.page_index xp yp) 0) yp color
        = s.m_buffer.getD (s.page_index xp yp) 0
    · rw [pixel_set_same s x y color xp yp hm hp]; exact hb
    · rw [(pixel_set_changed s x y color xp yp hm hp).2.2.2.2.2.2.2.1]
      intro b hmem
      rcases List.mem_or_eq_of_mem_set hmem with h | h
      · exact hb b h
      · rw [h]; exact page_modified_lt _ _ _

/-- The bit `pixel_set` addresses, read back through the 8 bit `page_index`,
has the value written, provided that index lies inside the buffer. -/
theorem pixel_set_bit_at_page_index (s : ssd1306) (x y color x_panel y_panel : Nat)
    (hb : ∀ b ∈ s.m_buffer, b < 256)
    (hm : s.m_rotation_handle x y = Except.ok (x_panel, y_panel))
    (hi : s.page_index x_panel y_panel < s.m_buffer.length) :
    ((s.pixel_set x y color).2.m_buffer.getD (s.page_index x_panel y_panel) 0).testBit
      (y_panel % 8) = decide (color ≠ 0) := by
  by_cases hp : page_modified (s.m_buffer.getD (s.page_index x_panel y_panel) 0) y_panel color
      = s.m_buffer.getD (s.page_index x_panel y_panel) 0
  · rw [pixel_set_same s x y color x_panel y_panel hm hp, ← hp]
    exact page_modified_testBit _ _ _ (getD_lt _ hb _)
  · rw [(pixel_set_changed s x y color x_panel y_panel hm hp).2.2.2.2.2.2.2.1,
      List.getD_eq_getElem _ _ (by rw [List.length_set]; exact hi), List.getElem_set_self]
    exact page_modified_testBit _ _ _ (getD_lt _ hb _)

/-- On a panel whose buffer has at most 256 bytes the 8 bit `page_index` is the
byte index `(y_panel / 8) * width + x_panel` itself, and it lies in the buffer. -/
theorem page_index_of_small_panel (s : ssd1306) (x_panel y_panel : Nat)
    (h8 : s.m_active_height % 8 = 0)
    (hsmall : s.m_active_width * (s.m_active_height / 8) ≤ 256)
    (hx : x_panel < s.m_active_width) (hy : y_panel < s.m_active_height) :
    s.page_index x_panel y_panel = (y_panel / 8) * s.m_active_width + x_panel ∧
    (y_panel / 8) * s.m_active_width + x_panel < s.m_active_width * (s.m_active_height / 8) := by
  have h1 : y_panel / 8 + 1 ≤ s.m_active_height / 8 := by omega
  have h2 : (y_panel / 8) * s.m_active_width + s.m_active_width
      ≤ s.m_active_width * (s.m_active_height / 8) := by
    rw [← Nat.succ_mul, Nat.mul_comm s.m_active_width]
    exact Nat.mul_le_mul_right _ h1
  refine ⟨?_, by omega⟩
  unfold page_index u8
  have h3 : ((x_panel : Int) + ((y_panel : Int) / 8) * (s.m_active_width : Int))
      = (((y_panel / 8) * s.m_active_width + x_panel : Nat) : Int) := by
    push_cast; ring
  rw [h3]
  omega

/-- The pixel round trip where the byte index fits the 8 bit `page_index`: on a
panel with at most 256 buffer bytes, after `pixel_set(x, y, color)` with a
nonzero colour the bit `y_panel mod 8` of the byte at
`(y_panel / 8) * width + x_panel` is 1, and after a following
`pixel_set(x, y, 0)` it is 0. -/
theorem pixel_set_round_trip_of_small_panel (s : ssd1306) (x y color x_panel y_panel : Nat)
    (hw : s.m_active_width < 256) (hh : s.m_active_height < 256)
    (h8 : s.m_active_height % 8 = 0)
    (hlen : s.m_buffer.length = s.m_active_width * (s.m_active_height / 8))
    (hsmall : s.m_active_width * (s.m_active_height / 8) ≤ 256)
    (hb : ∀ b ∈ s.m_buffer, b < 256)
    (hm : s.m_rotation_handle x y = Except.ok (x_panel, y_panel)) (hc : color ≠ 0) :
    ((s.pixel_set x y color).2.m_buffer.getD
      ((y_panel / 8) * s.m_active_width + x_panel) 0).testBit (y_panel % 8) = true ∧
    (((s.pixel_set x y color).2.pixel_set x y 0).2.m_buffer.getD
      ((y_panel / 8) * s.m_active_width + x_panel) 0).testBit (y_panel % 8) = false := by
  obtain ⟨hx, hy⟩ := m_rotation_handle_in_panel s x y x_panel y_panel hw hh hm
  obtain ⟨hidx, hlt⟩ := page_index_of_small_panel s x_panel y_panel h8 hsmall hx hy
  have hi : s.page_index x_panel y_panel < s.m_buffer.length := by rw [hidx, hlen]; exact hlt
  have h1 := pixel_set_bit_at_page_index s x y color x_panel y_panel hb hm hi
  rw [hidx] at h1
  refine ⟨by rw [h1]; simp [hc], ?_⟩
  -- the driver after the first call: same geometry, same buffer length
  have hgeo : (s.pixel_set x y color).2.rotation = s.rotation ∧
      (s.pixel_set x y color).2.m_active_width = s.m_active_width ∧
      (s.pixel_set x y color).2.m_active_height = s.m_active_height ∧
      (s.pixel_set x y color).2.m_buffer.length = s.m_buffer.length := by
    by_cases hp : page_modified (s.m_buffer.getD (s.page_index x_panel y_panel) 0) y_panel color
        = s.m_buffer.getD (s.page_index x_panel y_panel) 0
    · rw [pixel_set_same s x y color x_panel y_panel hm hp]; exact ⟨rfl, rfl, rfl, rfl⟩
    · obtain ⟨-, hr, hw2, hh2, -, -, -, hbuf, -⟩ :=
        pixel_set_changed s x y color x_panel y_panel hm hp
      exact ⟨hr, hw2, hh2, by rw [hbuf, List.length_set]⟩
  obtain ⟨hr, hw2, hh2, hl2⟩ := hgeo
  have hbt := pixel_set_bytes s x y color hb
  generalize (s.pixel_set x y color).2 = t at *
  have hmt : t.m_rotation_handle x y = Except.ok (x_panel, y_panel) := by
    rw [m_rotation_handle_congr s t x y hr hw2 hh2, hm]
  have hidxt : t.page_index x_panel y_panel = s.page_index x_panel y_panel :=
    page_index_congr s t x_panel y_panel hw2
  have h2 := pixel_set_bit_at_page_index t x y 0 x_panel y_panel hbt hmt
    (by rw [hidxt, hl2]; exact hi)
  rw [hidxt, hidx] at h2
  rw [hw2] at *
  rw [h2]; simp

set_option maxRecDepth 100000 in
/-- C1 at a failing input. On a blank 128 x 64 panel at rotation 0 the logical
point (10, 20) has panel image (10, 20), so its bit is bit 4 of the byte at
index (20 / 8) * 128 + 10 = 266. `pixel_set(10, 20, 1)` succeeds, its 8 bit
`page_index` is 10, bit 4 of byte 266 is still 0 afterwards and bit 4 of byte 10
(the pixel (10, 4)) is 1. -/
theorem pixel_set_128x64_wrong_byte :
    (panel 128 64 0 wire_ok).m_buffer.length = 128 * (64 / 8) ∧
    (panel 128 64 0 wire_ok).m_rotation_handle 10 20 = Except.ok (10, 20) ∧
    ((panel 128 64 0 wire_ok).pixel_set 10 20 1).1 = 0 ∧
    (panel 128 64 0 wire_ok).page_index 10 20 = 10 ∧
    ((((panel 128 64 0 wire_ok).pixel_set 10 20 1).2.m_buffer.getD ((20 / 8) * 128 + 10)
      0).testBit (20 % 8) = false) ∧
    ((((panel 128 64 0 wire_ok).pixel_set 10 20 1).2.m_buffer.getD 10 0).testBit 4 = true) := by
  refine ⟨by decide, rfl, by decide, by decide, by decide, by decide⟩

/-! ## Flushing the dirty rectangle -/

@[simp] theorem with_bus_bus (s : ssd1306) (w : TwoWire) :
    (s.with_bus w).m_i2c_library = w := rfl

@[simp] theorem with_bus_with_bus (s : ssd1306) (w w1 : TwoWire) :
    (s.with_bus w).with_bus w1 = s.with_bus w1 := rfl

@[simp] theorem with_bus_interface (s : ssd1306) (w : TwoWire) :
    (s.with_bus w).m_interface = s.m_interface := rfl

@[simp] theorem with_bus_address (s : ssd1306) (w : TwoWire) :
    (s.with_bus w).m_i2c_address = s.m_i2c_address := rfl

@[simp] theorem with_bus_buffer (s : ssd1306) (w : TwoWire) :
    (s.with_bus w).m_buffer = s.m_buffer := rfl

@[simp] theorem with_bus_width (s : ssd1306) (w : TwoWire) :
    (s.with_bus w).m_active_width = s.m_active_width := rfl

@[simp] theorem with_bus_height (s : ssd1306) (w : TwoWire) :
    (s.with_bus w).m_active_height = s.m_active_height := rfl

@[simp] theorem with_bus_redraw (s : ssd1306) (w : TwoWire) :
    (s.with_bus w).redraw = s.redraw := rfl

@[simp] theorem advance_status (w : TwoWire) (c : List WireCall) :
    (w.advance c).status = w.status := rfl

@[simp] theorem advance_accepted (w : TwoWire) (c : List WireCall) :
    (w.advance c).accepted = w.accepted := rfl

@[simp] theorem advance_calls (w : TwoWire) (c : List WireCall) :
    (w.advance c).calls = w.calls ++ c := rfl

theorem command_send2_i2c (s : ssd1306) (c p1 p2 : Nat)
    (hi : s.m_interface = interface.INTERFACE_I2C) :
    s.command_send2 c p1 p2 =
      (if s.m_i2c_library.status
            (s.m_i2c_library.calls ++ command_frame s.m_i2c_address c p1 p2) ≠ 0
        then -EIO_errno else 0,
       s.with_bus (s.m_i2c_library.advance (command_frame s.m_i2c_address c p1 p2))) := by
  unfold command_send2
  split
  · simp only [TwoWire.beginTransmission, TwoWire.write, TwoWire.endTransmission,
      TwoWire.advance, with_bus, command_frame, List.append_assoc, List.singleton_append,
      List.cons_append, List.nil_append]
    split_ifs <;> rfl
  · next hne => exact absurd hi hne

theorem data_send_loop_done (address : Nat) (data : List Nat) (length fuel : Nat)
    (w : TwoWire) (i : Nat) (h : ¬ i < length) :
    data_send_loop address data length fuel w i = some (0, w) := by
  unfold data_send_loop
  rw [if_neg h]

theorem data_send_loop_accepting (address : Nat) (data : List Nat) (length fuel : Nat)
    (w : TwoWire) (hacc : w.accepts_everything) (hl : 0 < length)
    (hlt : length < 2 ^ SIZE_BITS) :
    data_send_loop address data length (fuel + 1) w 0
      = some (0, w.advance (data_frame address (data.take length) length)) := by
  unfold data_send_loop
  rw [if_pos hl]
  simp only [TwoWire.beginTransmission, TwoWire.write, TwoWire.write_buffer,
    TwoWire.endTransmission, List.drop_zero, Nat.sub_zero, Nat.zero_add, List.append_assoc,
    List.singleton_append, List.cons_append, List.nil_append]
  have h1 : w.accepted (w.calls ++ [WireCall.beginTransmission address, WireCall.write 64,
      WireCall.write_buffer (List.take length data) length]) = length := by
    have := hacc.1 (w.calls ++ [WireCall.beginTransmission address, WireCall.write 64])
      (List.take length data) length
    simpa using this
  rw [h1, hacc.2, Nat.mod_eq_of_lt hlt]
  simp only [ne_eq, not_true_eq_false, if_false]
  rw [data_send_loop_done _ _ _ _ _ _ (Nat.lt_irrefl _)]
  rfl

theorem data_send_with_bus (fuel : Nat) (s : ssd1306) (data : List Nat) (length : Nat)
    (r : Int) (t : ssd1306) (h : data_send fuel s data length = some (r, t)) :
    t = s.with_bus t.m_i2c_library := by
  unfold data_send at h
  split at h
  · split at h
    · exact absurd h (by simp)
    · next res w heq =>
      simp only [Option.some.injEq, Prod.mk.injEq] at h
      rw [← h.2]; rfl
  · simp only [Option.some.injEq, Prod.mk.injEq] at h
    rw [← h.2]; rfl

theorem data_send_accepting (fuel : Nat) (s : ssd1306) (data : List Nat) (length : Nat)
    (hi : s.m_interface = interface.INTERFACE_I2C)
    (hacc : s.m_i2c_library.accepts_everything) (hl : 0 < length)
    (hlt : length < 2 ^ SIZE_BITS) :
    data_send (fuel + 1) s data length
      = some (0, s.with_bus
          (s.m_i2c_library.advance (data_frame s.m_i2c_address (data.take length) length))) := by
  unfold data_send
  split
  · rw [data_send_loop_accepting _ _ _ _ _ hacc hl hlt]
    rfl
  · next hne => exact absurd hi hne

theorem display_loop_with_bus (fuel column_min column_max : Nat) (pages : List Nat) :
    ∀ (s t : ssd1306), display_loop fuel column_min column_max pages s = some t →
      t = s.with_bus t.m_i2c_library := by
  induction pages with
  | nil =>
    intro s t h
    simp only [display_loop, Option.some.injEq] at h
    rw [← h]; rfl
  | cons page pages ih =>
    intro s t h
    unfold display_loop at h
    split at h
    · exact absurd h (by simp)
    · next r s1 heq =>
      have h1 := data_send_with_bus _ _ _ _ _ _ heq
      have h2 := ih s1 t h
      rw [h2, h1]; rfl

theorem size_t_of_span (column_min column_max : Nat) (h : column_min ≤ column_max)
    (hc : column_max < 256) :
    size_t_of_int (((column_max : Int) - (column_min : Int)) + 1)
      = column_max - column_min + 1 := by
  unfold size_t_of_int SIZE_BITS; omega

theorem advance_accepts (w : TwoWire) (new_calls : List WireCall)
    (h : w.accepts_everything) : (w.advance new_calls).accepts_everything := h

theorem advance_advance (w : TwoWire) (a b : List WireCall) :
    (w.advance a).advance b = w.advance (a ++ b) := by
  simp [TwoWire.advance, List.append_assoc]

theorem display_loop_accepting (fuel column_min column_max : Nat)
    (h : column_min ≤ column_max) (hc : column_max < 256) (pages : List Nat) :
    ∀ s : ssd1306, s.m_interface = interface.INTERFACE_I2C →
      s.m_i2c_library.accepts_everything →
      display_loop (fuel + 1) column_min column_max pages s
        = some (s.with_bus (s.m_i2c_library.advance (pages.flatMap (fun page =>
            data_frame s.m_i2c_address
              ((s.m_buffer.drop (page * s.m_active_width + column_min)).take
                (column_max - column_min + 1))
              (column_max - column_min + 1))))) := by
  induction pages with
  | nil =>
    intro s _ _
    simp [display_loop, with_bus, TwoWire.advance]
  | cons page pages ih =>
    intro s hi hacc
    unfold display_loop
    rw [size_t_of_span _ _ h hc,
      data_send_accepting fuel s _ _ hi hacc (Nat.succ_pos _) (by unfold SIZE_BITS; omega)]
    simp only []
    have hstep := fun (w : TwoWire) (hw : w.accepts_everything) => ih (s.with_bus w) hi hw
    rw [hstep (s.m_i2c_library.advance _) hacc]
    simp only [with_bus, advance_advance, List.flatMap_cons, List.take_take, Nat.min_self,
      Nat.succ_eq_add_one]

theorem slice_length (buffer : List Nat) (width height page x_min x_max y_max : Nat)
    (hlen : buffer.length = width * (height / 8)) (h8 : height % 8 = 0)
    (hxx : x_min ≤ x_max) (hx : x_max < width) (hy : y_max < height)
    (hp : page ≤ y_max / 8) :
    ((buffer.drop (page * width + x_min)).take (x_max - x_min + 1)).length
      = min (x_max - x_min + 1) (x_max - x_min + 1) ∧
    page * width + x_max < buffer.length := by
  have h1 : page + 1 ≤ height / 8 := by omega
  have h2 : page * width + width ≤ width * (height / 8) := by
    rw [← Nat.succ_mul, Nat.mul_comm width]
    exact Nat.mul_le_mul_right _ h1
  have h3 : page * width + x_max < buffer.length := by
    rw [hlen]; omega
  refine ⟨?_, h3⟩
  rw [List.length_take, List.length_drop]
  omega

/-- `display` on an I2C driver, with the two address-range commands carried out. -/
theorem display_i2c (fuel : Nat) (s : ssd1306)
    (hi : s.m_interface = interface.INTERFACE_I2C) :
    s.display fuel =
      if int_or
          (int_or 0 (if s.m_i2c_library.status (s.m_i2c_library.calls
            ++ command_frame s.m_i2c_address 0x21 s.m_redraw_x_panel_min
                s.m_redraw_x_panel_max) ≠ 0 then -EIO_errno else 0))
          (if s.m_i2c_library.status ((s.m_i2c_library.calls
            ++ command_frame s.m_i2c_address 0x21 s.m_redraw_x_panel_min
                s.m_redraw_x_panel_max)
            ++ command_frame s.m_i2c_address 0x22 (u8 ((s.m_redraw_y_panel_min : Int) / 8))
                (u8 ((s.m_redraw_y_panel_max : Int) / 8))) ≠ 0 then -EIO_errno else 0) ≠ 0
      then some (-EIO_errno, s.with_bus (s.m_i2c_library.advance
        (command_frame s.m_i2c_address 0x21 s.m_redraw_x_panel_min s.m_redraw_x_panel_max
          ++ command_frame s.m_i2c_address 0x22 (u8 ((s.m_redraw_y_panel_min : Int) / 8))
              (u8 ((s.m_redraw_y_panel_max : Int) / 8)))))
      else
        match display_loop fuel s.m_redraw_x_panel_min s.m_redraw_x_panel_max
          (List.range' (u8 ((s.m_redraw_y_panel_min : Int) / 8))
            (u8 ((s.m_redraw_y_panel_max : Int) / 8) + 1
              - u8 ((s.m_redraw_y_panel_min : Int) / 8)))
          (s.with_bus (s.m_i2c_library.advance
            (command_frame s.m_i2c_address 0x21 s.m_redraw_x_panel_min s.m_redraw_x_panel_max
              ++ command_frame s.m_i2c_address 0x22 (u8 ((s.m_redraw_y_panel_min : Int) / 8))
                  (u8 ((s.m_redraw_y_panel_max : Int) / 8))))) with
        | none => none
        | some s3 =>
          some (0, { s3 with
            m_redraw_x_panel_min := u8 ((s3.m_active_width : Int) - 1)
            m_redraw_x_panel_max := 0
            m_redraw_y_panel_min := u8 ((s3.m_active_height : Int) - 1)
            m_redraw_y_panel_max := 0 }) := by
  unfold display
  split
  · dsimp only
    rw [command_send2_i2c s _ _ _ hi]
    have hc2 := fun (w : TwoWire) (c p1 p2 : Nat) =>
      command_send2_i2c (s.with_bus w) c p1 p2 hi
    dsimp only
    rw [hc2]
    simp only [with_bus_bus, with_bus_with_bus, with_bus_address, advance_status,
      advance_calls, advance_advance]
  · next hne => exact absurd hi hne

/-- C6: on an I2C driver whose transport accepts everything, `display()` with a
pending dirty rectangle (`x_min <= x_max`, `y_min <= y_max`) succeeds and emits,
in this order, the command transaction `[0x00, 0x21, x_min, x_max]`, the command
transaction `[0x00, 0x22, y_min / 8, y_max / 8]`, and for each page `p` from
`y_min / 8` to `y_max / 8` ascending one data transaction (prefix `0x40`) whose
payload is the buffer slice that starts at `p * width + x_min` and has
`x_max - x_min + 1` bytes. When the buffer has `width * (height / 8)` bytes and
the rectangle lies inside the panel, each slice has exactly that length. -/
theorem display_emits_dirty_rectangle (fuel : Nat) (s : ssd1306)
    (hi : s.m_interface = interface.INTERFACE_I2C)
    (hacc : s.m_i2c_library.accepts_everything)
    (hx : s.m_redraw_x_panel_min ≤ s.m_redraw_x_panel_max)
    (hy : s.m_redraw_y_panel_min ≤ s.m_redraw_y_panel_max)
    (hxm : s.m_redraw_x_panel_max < 256) (hym : s.m_redraw_y_panel_max < 256) :
    (∃ t, s.display (fuel + 1) = some (0, t) ∧
      t.m_i2c_library.calls = s.m_i2c_library.calls
        ++ [WireCall.beginTransmission s.m_i2c_address, WireCall.write 0x00,
            WireCall.write 0x21, WireCall.write s.m_redraw_x_panel_min,
            WireCall.write s.m_redraw_x_panel_max, WireCall.endTransmission true]
        ++ [WireCall.beginTransmission s.m_i2c_address, WireCall.write 0x00,
            WireCall.write 0x22, WireCall.write (s.m_redraw_y_panel_min / 8),
            WireCall.write (s.m_redraw_y_panel_max / 8), WireCall.endTransmission true]
        ++ (List.range' (s.m_redraw_y_panel_min / 8)
              (s.m_redraw_y_panel_max / 8 + 1 - s.m_redraw_y_panel_min / 8)).flatMap
            (fun p =>
              [WireCall.beginTransmission s.m_i2c_address, WireCall.write 0x40,
                WireCall.write_buffer
                  ((s.m_buffer.drop (p * s.m_active_width + s.m_redraw_x_panel_min)).take
                    (s.m_redraw_x_panel_max - s.m_redraw_x_panel_min + 1))
                  (s.m_redraw_x_panel_max - s.m_redraw_x_panel_min + 1),
                WireCall.endTransmission true])) ∧
    (s.m_buffer.length = s.m_active_width * (s.m_active_height / 8) →
      s.m_active_height % 8 = 0 → s.m_redraw_x_panel_max < s.m_active_width →
      s.m_redraw_y_panel_max < s.m_active_height →
      ∀ p, p ≤ s.m_redraw_y_panel_max / 8 →
        ((s.m_buffer.drop (p * s.m_active_width + s.m_redraw_x_panel_min)).take
          (s.m_redraw_x_panel_max - s.m_redraw_x_panel_min + 1)).length
            = s.m_redraw_x_panel_max - s.m_redraw_x_panel_min + 1) := by
  constructor
  · have hymin : s.m_redraw_y_panel_min < 256 := Nat.lt_of_le_of_lt hy hym
    rw [display_i2c _ _ hi]
    simp only [hacc.2, ne_eq, not_true_eq_false, if_false]
    rw [if_neg (by decide), u8_div_eight _ hymin, u8_div_eight _ hym]
    have hloop2 := fun (w : TwoWire) (hw : w.accepts_everything) =>
      display_loop_accepting fuel s.m_redraw_x_panel_min s.m_redraw_x_panel_max
        hx hxm (List.range' (s.m_redraw_y_panel_min / 8)
          (s.m_redraw_y_panel_max / 8 + 1 - s.m_redraw_y_panel_min / 8)) (s.with_bus w) hi hw
    rw [hloop2 (s.m_i2c_library.advance _) hacc]
    refine ⟨_, rfl, ?_⟩
    simp [command_frame, data_frame]
  · intro hlen h8 hxw hyh p hp
    have := (slice_length s.m_buffer s.m_active_width s.m_active_height p
      s.m_redraw_x_panel_min s.m_redraw_x_panel_max s.m_redraw_y_panel_max hlen h8 hx hxw hyh
      hp).1
    rw [this, Nat.min_self]

theorem wire_ok_accepts : wire_ok.accepts_everything := by
  refine ⟨?_, fun _ => rfl⟩
  intro calls data quantity
  show accept_all _ = _
  unfold accept_all
  rw [List.getLast?_concat]

/-- Witness of C6: width 128, height 64, dirty rectangle x 10..10, y 20..20 and
a buffer whose byte 266 is `0x10`. The column command is bounded `[10, 10]`, the
page command `[2, 2]`, and there is one data transaction of length 1 carrying
byte 2 * 128 + 10 = 266 of the buffer. -/
theorem display_emits_dirty_rectangle_witness :
    ∃ t, (with_redraw (with_buffer (panel 128 64 0 wire_ok)
        ((List.replicate 1024 0).set 266 0x10)) 10 10 20 20).display 1 = some (0, t) ∧
      t.m_i2c_library.calls =
        [WireCall.beginTransmission 0x3C, WireCall.write 0x00, WireCall.write 0x21,
          WireCall.write 10, WireCall.write 10, WireCall.endTransmission true,
          WireCall.beginTransmission 0x3C, WireCall.write 0x00, WireCall.write 0x22,
          WireCall.write 2, WireCall.write 2, WireCall.endTransmission true,
          WireCall.beginTransmission 0x3C, WireCall.write 0x40,
          WireCall.write_buffer [0x10] 1, WireCall.endTransmission true] := by
  obtain ⟨t, h1, h2⟩ := (display_emits_dirty_rectangle 0
    (with_redraw (with_buffer (panel 128 64 0 wire_ok)
      ((List.replicate 1024 0).set 266 0x10)) 10 10 20 20)
    rfl wire_ok_accepts (by decide) (by decide) (by decide) (by decide)).1
  refine ⟨t, h1, ?_⟩
  rw [h2]
  decide

theorem display_not_i2c (fuel : Nat) (s : ssd1306)
    (hi : s.m_interface ≠ interface.INTERFACE_I2C) :
    s.display fuel = some (-EINVAL_errno, s) := by
  unfold display
  split
  · next h => exact absurd h hi
  · rfl

/-- What a successful `display` leaves: an I2C driver that differs from the one
before only in the transport and in the dirty rectangle, which is reset. -/
theorem display_success_state (fuel : Nat) (s t : ssd1306)
    (h : s.display fuel = some (0, t)) :
    s.m_interface = interface.INTERFACE_I2C ∧
    t.rotation = s.rotation ∧ t.m_active_width = s.m_active_width ∧
    t.m_active_height = s.m_active_height ∧ t.m_i2c_address = s.m_i2c_address ∧
    t.m_buffer = s.m_buffer ∧ t.m_interface = s.m_interface ∧
    t.redraw = (u8 ((s.m_active_width : Int) - 1), 0, u8 ((s.m_active_height : Int) - 1), 0) := by
  by_cases hi : s.m_interface = interface.INTERFACE_I2C
  · refine ⟨hi, ?_⟩
    rw [display_i2c _ _ hi] at h
    generalize int_or (int_or 0 _) _ = res at h
    by_cases hres : res ≠ 0
    · rw [if_pos hres] at h
      simp [EIO_errno] at h
    · rw [if_neg hres] at h
      split at h
      · exact absurd h (by simp)
      · next s3 hloop =>
        have h3 := display_loop_with_bus _ _ _ _ _ _ hloop
        simp only [Option.some.injEq, Prod.mk.injEq, true_and] at h
        rw [← h, h3]
        exact ⟨rfl, rfl, rfl, rfl, rfl, rfl, rfl⟩
  · rw [display_not_i2c _ _ hi] at h
    simp [EINVAL_errno] at h

/-- C7 at a failing input. Width 128, height 64, dirty rectangle x 10..10,
y 20..20, on a transport that ends the data transaction with status 2. The two
commands succeed, the status of the last `endTransmission`, the one that closes
the data transaction, is 2, and yet `display()` returns 0 and the dirty
rectangle, (10, 10, 20, 20) before the call, is reset to (127, 0, 63, 0). -/
theorem display_128x64_data_failure_ignored :
    (with_redraw (panel 128 64 0 wire_data_nack) 10 10 20 20).redraw = (10, 10, 20, 20) ∧
    ∃ t, (with_redraw (panel 128 64 0 wire_data_nack) 10 10 20 20).display 1 = some (0, t) ∧
      t.m_i2c_library.calls =
        [WireCall.beginTransmission 0x3C, WireCall.write 0x00, WireCall.write 0x21,
          WireCall.write 10, WireCall.write 10, WireCall.endTransmission true,
          WireCall.beginTransmission 0x3C, WireCall.write 0x00, WireCall.write 0x22,
          WireCall.write 2, WireCall.write 2, WireCall.endTransmission true,
          WireCall.beginTransmission 0x3C, WireCall.write 0x40,
          WireCall.write_buffer [0] 1, WireCall.endTransmission true] ∧
      t.m_i2c_library.status t.m_i2c_library.calls = 2 ∧
      t.redraw = (127, 0, 63, 0) := by
  refine ⟨rfl, _, rfl, ?_, ?_, ?_⟩ <;> decide

/-- What C8 says fails on a 128 x 64 panel with an accepting transport: after a
successful `display()` of the dirty rectangle x 10..10, y 20..20, a second
`display()` with nothing in between succeeds and issues two command
transactions, `[0x00, 0x21, 127, 0]` and `[0x00, 0x22, 7, 0]`. -/
theorem second_display_128x64_sends_commands :
    ∃ t u, (with_redraw (panel 128 64 0 wire_ok) 10 10 20 20).display 1 = some (0, t) ∧
      t.display 1 = some (0, u) ∧
      u.m_i2c_library.calls = t.m_i2c_library.calls ++
        [WireCall.beginTransmission 0x3C, WireCall.write 0x00, WireCall.write 0x21,
          WireCall.write 127, WireCall.write 0, WireCall.endTransmission true,
          WireCall.beginTransmission 0x3C, WireCall.write 0x00, WireCall.write 0x22,
          WireCall.write 7, WireCall.write 0, WireCall.endTransmission true] ∧
      u.m_i2c_library.calls ≠ t.m_i2c_library.calls := by
  refine ⟨_, _, rfl, rfl, ?_, ?_⟩ <;> decide

/-- C8 as amended: after a successful `display()` on a panel with
`1 <= width < 256` and `8 < height < 256`, a second `display()` with no
`pixel_set` or `clear` in between returns and issues exactly two bus
transactions, the column address-range command `[0x00, 0x21, width - 1, 0]` and
the page address-range command `[0x00, 0x22, (height - 1) / 8, 0]`; it sends no
data page. -/
theorem second_display_only_commands (fuel fuel2 : Nat) (s t : ssd1306)
    (h : s.display fuel = some (0, t))
    (hw : 1 ≤ s.m_active_width ∧ s.m_active_width < 256)
    (hh : 8 < s.m_active_height ∧ s.m_active_height < 256) :
    ∃ r u, t.display fuel2 = some (r, u) ∧
      u.m_i2c_library.calls = t.m_i2c_library.calls
        ++ [WireCall.beginTransmission s.m_i2c_address, WireCall.write 0x00,
            WireCall.write 0x21, WireCall.write (s.m_active_width - 1),
            WireCall.write 0, WireCall.endTransmission true]
        ++ [WireCall.beginTransmission s.m_i2c_address, WireCall.write 0x00,
            WireCall.write 0x22, WireCall.write ((s.m_active_height - 1) / 8),
            WireCall.write 0, WireCall.endTransmission true] := by
  obtain ⟨hi, -, hw2, hh2, ha, -, hi2, hred⟩ := display_success_state fuel s t h
  simp only [redraw, Prod.mk.injEq] at hred
  obtain ⟨e1, e2, e3, e4⟩ := hred
  have hit : t.m_interface = interface.INTERFACE_I2C := by rw [hi2, hi]
  have hx : u8 ((s.m_active_width : Int) - 1) = s.m_active_width - 1 := by
    unfold u8; omega
  have hpmin : u8 ((u8 ((s.m_active_height : Int) - 1) : Int) / 8)
      = (s.m_active_height - 1) / 8 := by
    unfold u8; omega
  have hpmax : u8 (((0 : Nat) : Int) / 8) = 0 := by decide
  rw [display_i2c _ _ hit, e1, e2, e3, e4, ha, hx, hpmin, hpmax]
  have hempty : List.range' ((s.m_active_height - 1) / 8)
      (0 + 1 - (s.m_active_height - 1) / 8) = [] := by
    have : 0 + 1 - (s.m_active_height - 1) / 8 = 0 := by omega
    rw [this]; rfl
  rw [hempty]
  generalize int_or (int_or 0 _) _ = res
  by_cases hres : res ≠ 0
  · rw [if_pos hres]
    exact ⟨_, _, rfl, by simp [command_frame]⟩
  · rw [if_neg hres]
    exact ⟨_, _, rfl, by simp [display_loop, command_frame]⟩

/-- Witness of C8 as amended, on the 128 x 64 panel: the second `display()`
issues the commands `[0x00, 0x21, 127, 0]` and `[0x00, 0x22, 7, 0]` only. -/
theorem second_display_only_commands_witness :
    ∃ t, (with_redraw (panel 128 64 0 wire_ok) 10 10 20 20).display 1 = some (0, t) ∧
      ∃ r u, t.display 1 = some (r, u) ∧
        u.m_i2c_library.calls = t.m_i2c_library.calls
          ++ [WireCall.beginTransmission 0x3C, WireCall.write 0x00,
              WireCall.write 0x21, WireCall.write 127,
              WireCall.write 0, WireCall.endTransmission true]
          ++ [WireCall.beginTransmission 0x3C, WireCall.write 0x00,
              WireCall.write 0x22, WireCall.write 7,
              WireCall.write 0, WireCall.endTransmission true] :=
  ⟨_, rfl, second_display_only_commands 1 1
    (with_redraw (panel 128 64 0 wire_ok) 10 10 20 20) _ rfl
    ⟨by decide, by decide⟩ ⟨by decide, by decide⟩⟩

/-- C9: whenever `display()` returns success the dirty rectangle afterwards is
the empty encoding `x_min = width - 1`, `x_max = 0`, `y_min = height - 1`,
`y_max = 0` (the two differences taken in 8 bit arithmetic, so they are
`width - 1` and `height - 1` for every width and height from 1 to 255), and the
framebuffer is unchanged. -/
theorem display_success_resets (fuel : Nat) (s t : ssd1306)
    (h : s.display fuel = some (0, t)) :
    (t.m_redraw_x_panel_min : Int) = ((s.m_active_width : Int) - 1) % 256 ∧
    t.m_redraw_x_panel_max = 0 ∧
    (t.m_redraw_y_panel_min : Int) = ((s.m_active_height : Int) - 1) % 256 ∧
    t.m_redraw_y_panel_max = 0 ∧
    t.m_buffer = s.m_buffer ∧
    (1 ≤ s.m_active_width → s.m_active_width < 256 →
      t.m_redraw_x_panel_min = s.m_active_width - 1) ∧
    (1 ≤ s.m_active_height → s.m_active_height < 256 →
      t.m_redraw_y_panel_min = s.m_active_height - 1) := by
  obtain ⟨-, -, -, -, -, hb, -, hred⟩ := display_success_state fuel s t h
  simp only [redraw, Prod.mk.injEq] at hred
  obtain ⟨e1, e2, e3, e4⟩ := hred
  refine ⟨?_, e2, ?_, e4, hb, ?_, ?_⟩
  · rw [e1]; unfold u8; omega
  · rw [e3]; unfold u8; omega
  · intro h1 h2; rw [e1]; unfold u8; omega
  · intro h1 h2; rw [e3]; unfold u8; omega

/-- Witness of C9: `display()` of the dirty rectangle x 10..10, y 20..20 on the
128 x 64 panel succeeds and leaves the rectangle (127, 0, 63, 0). -/
theorem display_success_resets_witness :
    ∃ t, (with_redraw (panel 128 64 0 wire_ok) 10 10 20 20).display 1 = some (0, t) ∧
      t.m_redraw_x_panel_min = 127 ∧ t.m_redraw_x_panel_max = 0 ∧
      t.m_redraw_y_panel_min = 63 ∧ t.m_redraw_y_panel_max = 0 ∧
      t.m_buffer = (with_redraw (panel 128 64 0 wire_ok) 10 10 20 20).m_buffer :=
  ⟨_, rfl,
    (display_success_resets 1 (with_redraw (panel 128 64 0 wire_ok) 10 10 20 20) _ rfl).2.2.2.2.2.1
      (by decide) (by decide),
    (display_success_resets 1 (with_redraw (panel 128 64 0 wire_ok) 10 10 20 20) _ rfl).2.1,
    (display_success_resets 1 (with_redraw (panel 128 64 0 wire_ok) 10 10 20 20) _ rfl).2.2.2.2.2.2
      (by decide) (by decide),
    (display_success_resets 1 (with_redraw (panel 128 64 0 wire_ok) 10 10 20 20) _ rfl).2.2.2.1,
    (display_success_resets 1 (with_redraw (panel 128 64 0 wire_ok) 10 10 20 20) _ rfl).2.2.2.2.1⟩

/-! ## Clearing the framebuffer -/

theorem clear_columns (width page : Nat) (n : Nat) (buffer : List Nat) :
    ((List.range n).foldl (fun b column => b.set (column + page * width) 0) buffer).length
      = buffer.length ∧
    ∀ j, ((List.range n).foldl (fun b column => b.set (column + page * width) 0) buffer)[j]?
      = if page * width ≤ j ∧ j < page * width + n ∧ j < buffer.length then some 0
        else buffer[j]? := by
  induction n with
  | zero =>
    refine ⟨rfl, fun j => ?_⟩
    simp only [List.range_zero, List.foldl_nil]
    rw [if_neg (by omega)]
  | succ n ih =>
    rw [List.range_succ, List.foldl_append]
    simp only [List.foldl_cons, List.foldl_nil]
    refine ⟨by rw [List.length_set]; exact ih.1, fun j => ?_⟩
    rw [List.getElem?_set, ih.1, ih.2 j]
    by_cases hj : n + page * width = j
    · subst hj
      by_cases hl : n + page * width < buffer.length
      · rw [if_pos rfl, if_pos hl, if_pos (by omega)]
      · rw [if_pos rfl, if_neg hl, if_neg (by omega)]
        exact (List.getElem?_eq_none (by omega)).symm
    · rw [if_neg hj]
      by_cases hc : page * width ≤ j ∧ j < page * width + n ∧ j < buffer.length
      · rw [if_pos hc, if_pos (by omega)]
      · rw [if_neg hc, if_neg (by omega)]

theorem clear_pages (width : Nat) (n : Nat) (buffer : List Nat) :
    ((List.range n).foldl (fun b page => (List.range width).foldl
      (fun b column => b.set (column + page * width) 0) b) buffer).length = buffer.length ∧
    ∀ j, ((List.range n).foldl (fun b page => (List.range width).foldl
      (fun b column => b.set (column + page * width) 0) b) buffer)[j]?
      = if j < n * width ∧ j < buffer.length then some 0 else buffer[j]? := by
  induction n with
  | zero =>
    refine ⟨rfl, fun j => ?_⟩
    simp only [List.range_zero, List.foldl_nil]
    rw [if_neg (by omega)]
  | succ n ih =>
    rw [List.range_succ, List.foldl_append]
    simp only [List.foldl_cons, List.foldl_nil]
    obtain ⟨hlen, hget⟩ := clear_columns width n width
      ((List.range n).foldl (fun b page => (List.range width).foldl
        (fun b column => b.set (column + page * width) 0) b) buffer)
    refine ⟨by rw [hlen]; exact ih.1, fun j => ?_⟩
    rw [hget j, ih.1, ih.2 j, Nat.succ_mul]
    by_cases h1 : n * width ≤ j ∧ j < n * width + width ∧ j < buffer.length
    · rw [if_pos h1, if_pos (by omega)]
    · rw [if_neg h1]
      by_cases h2 : j < n * width ∧ j < buffer.length
      · rw [if_pos h2, if_pos (by omega)]
      · rw [if_neg h2, if_neg (by omega)]

/-- C10: `clear()` is total and returns 0; the buffer keeps its length and every
byte with index below `width * (height / 8)` is 0 afterwards, so a buffer of that
length becomes all zero; the dirty rectangle becomes
`(0, width - 1, 0, height - 1)`, the two differences taken in 8 bit arithmetic
(they are `width - 1` and `height - 1` for widths and heights from 1 to 255).
Nothing depends on the buffer content or the dirty rectangle before the call. -/
theorem clear_zeroes_and_marks_full_panel (s : ssd1306) :
    s.clear.1 = 0 ∧
    s.clear.2.m_buffer.length = s.m_buffer.length ∧
    (∀ i, i < s.m_active_width * (s.m_active_height / 8) → i < s.m_buffer.length →
      s.clear.2.m_buffer[i]? = some 0) ∧
    (s.m_buffer.length = s.m_active_width * (s.m_active_height / 8) →
      s.clear.2.m_buffer = List.replicate (s.m_active_width * (s.m_active_height / 8)) 0) ∧
    s.clear.2.m_redraw_x_panel_min = 0 ∧
    (s.clear.2.m_redraw_x_panel_max : Int) = ((s.m_active_width : Int) - 1) % 256 ∧
    s.clear.2.m_redraw_y_panel_min = 0 ∧
    (s.clear.2.m_redraw_y_panel_max : Int) = ((s.m_active_height : Int) - 1) % 256 ∧
    (1 ≤ s.m_active_width → s.m_active_width < 256 →
      s.clear.2.m_redraw_x_panel_max = s.m_active_width - 1) ∧
    (1 ≤ s.m_active_height → s.m_active_height < 256 →
      s.clear.2.m_redraw_y_panel_max = s.m_active_height - 1) := by
  obtain ⟨hlen, hget⟩ := clear_pages s.m_active_width (s.m_active_height / 8) s.m_buffer
  have hzero : ∀ i, i < s.m_active_width * (s.m_active_height / 8) → i < s.m_buffer.length →
      s.clear.2.m_buffer[i]? = some 0 := by
    intro i h1 h2
    show ((List.range (s.m_active_height / 8)).foldl _ s.m_buffer)[i]? = some 0
    rw [hget i, if_pos ⟨by rw [Nat.mul_comm]; exact h1, h2⟩]
  refine ⟨rfl, hlen, hzero, ?_, rfl, ?_, rfl, ?_, ?_, ?_⟩
  · intro hl
    apply List.ext_getElem?
    intro i
    by_cases hi : i < s.m_active_width * (s.m_active_height / 8)
    · rw [hzero i hi (by omega), List.getElem?_replicate, if_pos hi]
    · rw [List.getElem?_replicate, if_neg hi]
      exact List.getElem?_eq_none (by rw [show s.clear.2.m_buffer.length = _ from hlen]; omega)
  · show ((u8 _ : Nat) : Int) = _
    unfold u8; omega
  · show ((u8 _ : Nat) : Int) = _
    unfold u8; omega
  · intro h1 h2
    show u8 _ = _
    unfold u8; omega
  · intro h1 h2
    show u8 _ = _
    unfold u8; omega

/-- Witness of C10 on a 16 x 16 panel whose buffer holds one lit pixel. -/
theorem clear_zeroes_and_marks_full_panel_witness :
    ((panel 16 16 0 wire_ok).pixel_set 3 9 1).2.m_buffer ≠ List.replicate 32 0 ∧
    ((panel 16 16 0 wire_ok).pixel_set 3 9 1).2.clear.2.m_buffer = List.replicate 32 0 ∧
    ((panel 16 16 0 wire_ok).pixel_set 3 9 1).2.clear.2.m_redraw_x_panel_max = 15 ∧
    ((panel 16 16 0 wire_ok).pixel_set 3 9 1).2.clear.2.m_redraw_y_panel_max = 15 :=
  ⟨by decide,
    (clear_zeroes_and_marks_full_panel ((panel 16 16 0 wire_ok).pixel_set 3 9 1).2).2.2.2.1
      (by decide),
    (clear_zeroes_and_marks_full_panel ((panel 16 16 0 wire_ok).pixel_set 3 9 1).2).2.2.2.2.2.2.2.2.1
      (by decide) (by decide),
    (clear_zeroes_and_marks_full_panel ((panel 16 16 0 wire_ok).pixel_set 3 9 1).2).2.2.2.2.2.2.2.2.2
      (by decide) (by decide)⟩

/-! ## The transform as a bijection, and the byte index of pixel_set -/

/-- A point inside the rotated canvas is accepted; the image is the closed form
of the rotation. -/
theorem m_rotation_handle_accepts (s : ssd1306) (x y : Nat)
    (hw : s.m_active_width < 256) (hh : s.m_active_height < 256) :
    (s.rotation = 0 → x < s.m_active_width → y < s.m_active_height →
      s.m_rotation_handle x y = Except.ok (x, y)) ∧
    (s.rotation = 1 → x < s.m_active_height → y < s.m_active_width →
      s.m_rotation_handle x y = Except.ok (s.m_active_width - y - 1, x)) ∧
    (s.rotation = 2 → x < s.m_active_width → y < s.m_active_height →
      s.m_rotation_handle x y
        = Except.ok (s.m_active_width - x - 1, s.m_active_height - y - 1)) ∧
    (s.rotation = 3 → x < s.m_active_height → y < s.m_active_width →
      s.m_rotation_handle x y = Except.ok (y, s.m_active_height - x - 1)) := by
  refine ⟨?_, ?_, ?_, ?_⟩ <;> intro hr hx hy
  · simp [m_rotation_handle, hr, Nat.not_le.mpr hx, Nat.not_le.mpr hy]
  · simp [m_rotation_handle, hr, Nat.not_le.mpr hx, Nat.not_le.mpr hy,
      u8_sub_sub_one _ _ hy hw]
  · simp [m_rotation_handle, hr, Nat.not_le.mpr hx, Nat.not_le.mpr hy,
      u8_sub_sub_one _ _ hx hw, u8_sub_sub_one _ _ hy hh]
  · simp [m_rotation_handle, hr, Nat.not_le.mpr hx, Nat.not_le.mpr hy,
      u8_sub_sub_one _ _ hx hh]

/-- The logical point behind an accepted panel image, rotation by rotation. -/
theorem m_rotation_handle_inverse (s : ssd1306) (x y x_panel y_panel : Nat)
    (hw : s.m_active_width < 256) (hh : s.m_active_height < 256)
    (hm : s.m_rotation_handle x y = Except.ok (x_panel, y_panel)) :
    (s.rotation = 0 ∧ x = x_panel ∧ y = y_panel) ∨
    (s.rotation = 1 ∧ x = y_panel ∧ y = s.m_active_width - x_panel - 1 ∧
      x_panel < s.m_active_width) ∨
    (s.rotation = 2 ∧ x = s.m_active_width - x_panel - 1 ∧
      y = s.m_active_height - y_panel - 1 ∧ x_panel < s.m_active_width ∧
      y_panel < s.m_active_height) ∨
    (s.rotation = 3 ∧ x = s.m_active_height - y_panel - 1 ∧ y = x_panel ∧
      y_panel < s.m_active_height) := by
  unfold m_rotation_handle at hm
  split at hm
  all_goals first
    | (split at hm
       · exact absurd hm (by simp)
       · next hrot hc =>
         simp only [Except.ok.injEq, Prod.mk.injEq] at hm
         obtain ⟨h1, h2⟩ := hm
         subst h1 h2
         try unfold u8
         omega)
    | exact absurd hm (by simp)

/-- C19: for 8 bit width and height and each rotation 0..3, `m_rotation_handle`
restricted to the points it accepts is a bijection onto the panel rectangle
`[0, width) x [0, height)`: every image has `x_panel < width` and
`y_panel < height`, two accepted points with the same image are equal, and every
panel point is the image of an accepted point. -/
theorem m_rotation_handle_bijective (s : ssd1306)
    (hw : s.m_active_width < 256) (hh : s.m_active_height < 256)
    (hr : s.rotation < 4) :
    (∀ x y x_panel y_panel, s.m_rotation_handle x y = Except.ok (x_panel, y_panel) →
      x_panel < s.m_active_width ∧ y_panel < s.m_active_height) ∧
    (∀ x y x2 y2 p, s.m_rotation_handle x y = Except.ok p →
      s.m_rotation_handle x2 y2 = Except.ok p → x = x2 ∧ y = y2) ∧
    (∀ x_panel y_panel, x_panel < s.m_active_width → y_panel < s.m_active_height →
      ∃ x y, s.m_rotation_handle x y = Except.ok (x_panel, y_panel)) := by
  refine ⟨fun x y xp yp hm => m_rotation_handle_in_panel s x y xp yp hw hh hm, ?_, ?_⟩
  · intro x y x2 y2 p h1 h2
    obtain ⟨xp, yp⟩ := p
    have i1 := m_rotation_handle_inverse s x y xp yp hw hh h1
    have i2 := m_rotation_handle_inverse s x2 y2 xp yp hw hh h2
    omega
  · intro xp yp hx hy
    have hcases : s.rotation = 0 ∨ s.rotation = 1 ∨ s.rotation = 2 ∨ s.rotation = 3 := by
      omega
    rcases hcases with h | h | h | h
    · exact ⟨xp, yp, (m_rotation_handle_accepts s xp yp hw hh).1 h hx hy⟩
    · refine ⟨yp, s.m_active_width - xp - 1, ?_⟩
      rw [(m_rotation_handle_accepts s yp (s.m_active_width - xp - 1) hw hh).2.1 h hy
        (by omega)]
      congr 2; omega
    · refine ⟨s.m_active_width - xp - 1, s.m_active_height - yp - 1, ?_⟩
      rw [(m_rotation_handle_accepts s _ _ hw hh).2.2.1 h (by omega) (by omega)]
      congr 2 <;> omega
    · refine ⟨s.m_active_height - yp - 1, xp, ?_⟩
      rw [(m_rotation_handle_accepts s _ _ hw hh).2.2.2 h (by omega) hx]
      congr 2; omega

/-- Witness of C19 on the 128 x 64 panel at rotation 1: every image lies in the
panel and the panel point (107, 10) is the image of an accepted point. -/
theorem m_rotation_handle_bijective_witness :
    (∀ x y x_panel y_panel,
      (panel 128 64 1 wire_ok).m_rotation_handle x y = Except.ok (x_panel, y_panel) →
      x_panel < 128 ∧ y_panel < 64) ∧
    (∃ x y, (panel 128 64 1 wire_ok).m_rotation_handle x y = Except.ok (107, 10)) :=
  ⟨(m_rotation_handle_bijective (panel 128 64 1 wire_ok) (by decide) (by decide)
      (by decide)).1,
    (m_rotation_handle_bijective (panel 128 64 1 wire_ok) (by decide) (by decide)
      (by decide)).2.2 107 10 (by decide) (by decide)⟩

/-- The 8 bit `page_index` never exceeds the byte index it comes from, and that
index lies in a buffer of `width * (height / 8)` bytes. -/
theorem page_index_lt (s : ssd1306) (x_panel y_panel : Nat)
    (h8 : s.m_active_height % 8 = 0)
    (hx : x_panel < s.m_active_width) (hy : y_panel < s.m_active_height) :
    s.page_index x_panel y_panel ≤ (y_panel / 8) * s.m_active_width + x_panel ∧
    (y_panel / 8) * s.m_active_width + x_panel < s.m_active_width * (s.m_active_height / 8) := by
  have h1 : y_panel / 8 + 1 ≤ s.m_active_height / 8 := by omega
  have h2 : (y_panel / 8) * s.m_active_width + s.m_active_width
      ≤ s.m_active_width * (s.m_active_height / 8) := by
    rw [← Nat.succ_mul, Nat.mul_comm s.m_active_width]
    exact Nat.mul_le_mul_right _ h1
  refine ⟨?_, by omega⟩
  unfold page_index u8
  have h3 : ((x_panel : Int) + ((y_panel : Int) / 8) * (s.m_active_width : Int))
      = (((y_panel / 8) * s.m_active_width + x_panel : Nat) : Int) := by
    push_cast; ring
  rw [h3]
  omega

/-- C20: on a panel whose height is a multiple of 8 (width and height 8 bit
values), for every `(x, y, color)` the transform accepts, the 8 bit `page_index`
that `pixel_set` reads and writes is below the buffer length
`width * (height / 8)`, and that byte is the only one the call can change; when
the transform rejects `(x, y)` the buffer is not touched. -/
theorem pixel_set_index_in_buffer (s : ssd1306) (x y color : Nat)
    (hw : s.m_active_width < 256) (hh : s.m_active_height < 256)
    (h8 : s.m_active_height % 8 = 0) :
    (∀ x_panel y_panel, s.m_rotation_handle x y = Except.ok (x_panel, y_panel) →
      s.page_index x_panel y_panel < s.m_active_width * (s.m_active_height / 8) ∧
      ((s.pixel_set x y color).2.m_buffer = s.m_buffer ∨
        (s.pixel_set x y color).2.m_buffer = s.m_buffer.set (s.page_index x_panel y_panel)
          (page_modified (s.m_buffer.getD (s.page_index x_panel y_panel) 0) y_panel color))) ∧
    (∀ e, s.m_rotation_handle x y = Except.error e →
      (s.pixel_set x y color).2.m_buffer = s.m_buffer) := by
  constructor
  · intro xp yp hm
    obtain ⟨hx, hy⟩ := m_rotation_handle_in_panel s x y xp yp hw hh hm
    obtain ⟨h1, h2⟩ := page_index_lt s xp yp h8 hx hy
    refine ⟨Nat.lt_of_le_of_lt h1 h2, ?_⟩
    by_cases hp : page_modified (s.m_buffer.getD (s.page_index xp yp) 0) yp color
        = s.m_buffer.getD (s.page_index xp yp) 0
    · left; rw [pixel_set_same s x y color xp yp hm hp]
    · right; exact (pixel_set_changed s x y color xp yp hm hp).2.2.2.2.2.2.2.1
  · intro e hm
    rw [pixel_set_error s x y color e hm]

/-- Witness of C20 on the 128 x 64 panel at the logical point (10, 20): the
8 bit index is 10, below the buffer length 1024. -/
theorem pixel_set_index_in_buffer_witness :
    (panel 128 64 0 wire_ok).page_index 10 20 < 128 * (64 / 8) :=
  ((pixel_set_index_in_buffer (panel 128 64 0 wire_ok) 10 20 1 (by decide) (by decide)
    (by decide)).1 10 20 rfl).1

/-! ## Setup -/

theorem command_send_i2c (s : ssd1306) (c : Nat)
    (hi : s.m_interface = interface.INTERFACE_I2C) :
    s.command_send c =
      (if s.m_i2c_library.status
            (s.m_i2c_library.calls ++ command_frame0 s.m_i2c_address c) ≠ 0
        then -EIO_errno else 0,
       s.with_bus (s.m_i2c_library.advance (command_frame0 s.m_i2c_address c))) := by
  unfold command_send
  split
  · simp only [TwoWire.beginTransmission, TwoWire.write, TwoWire.endTransmission,
      TwoWire.advance, with_bus, command_frame0, List.append_assoc, List.singleton_append,
      List.cons_append, List.nil_append]
    split_ifs <;> rfl
  · next hne => exact absurd hi hne

theorem command_send1_i2c (s : ssd1306) (c p : Nat)
    (hi : s.m_interface = interface.INTERFACE_I2C) :
    s.command_send1 c p =
      (if s.m_i2c_library.status
            (s.m_i2c_library.calls ++ command_frame1 s.m_i2c_address c p) ≠ 0
        then -EIO_errno else 0,
       s.with_bus (s.m_i2c_library.advance (command_frame1 s.m_i2c_address c p))) := by
  unfold command_send1
  split
  · simp only [TwoWire.beginTransmission, TwoWire.write, TwoWire.endTransmission,
      TwoWire.advance, with_bus, command_frame1, List.append_assoc, List.singleton_append,
      List.cons_append, List.nil_append]
    split_ifs <;> rfl
  · next hne => exact absurd hi hne

theorem data_send_byte_i2c (s : ssd1306) (d : Nat)
    (hi : s.m_interface = interface.INTERFACE_I2C) :
    s.data_send_byte d =
      (if s.m_i2c_library.status
            (s.m_i2c_library.calls ++ data_byte_frame s.m_i2c_address d) ≠ 0
        then -EIO_errno else 0,
       s.with_bus (s.m_i2c_library.advance (data_byte_frame s.m_i2c_address d))) := by
  unfold data_send_byte
  split
  · simp only [TwoWire.beginTransmission, TwoWire.write, TwoWire.endTransmission,
      TwoWire.advance, with_bus, data_byte_frame, List.append_assoc, List.singleton_append,
      List.cons_append, List.nil_append]
    split_ifs <;> rfl
  · next hne => exact absurd hi hne

/-- `res |= r` on values that are `0` or `-EIO`. -/
theorem int_or_code (a b : Bool) :
    int_or (if a = true then -EIO_errno else 0) (if b = true then -EIO_errno else 0)
      = if (a || b) = true then -EIO_errno else 0 := by
  cases a <;> cases b <;> decide

/-- One statement `res |= f(...)` whose call issues the transaction `frame`. -/
theorem res_or_transaction (b : Bool) (s0 : ssd1306) (w : TwoWire)
    (f : ssd1306 → Int × ssd1306) (frame : List WireCall)
    (hf : f (s0.with_bus w) = (if w.status (w.calls ++ frame) ≠ 0 then -EIO_errno else 0,
      s0.with_bus (w.advance frame))) :
    res_or (if b = true then -EIO_errno else 0, s0.with_bus w) f
      = (if (b || (w.status (w.calls ++ frame) != 0)) = true then -EIO_errno else 0,
         s0.with_bus (w.advance frame)) := by
  unfold res_or
  simp only [hf]
  have : (if w.status (w.calls ++ frame) ≠ 0 then -EIO_errno else (0 : Int))
      = if (w.status (w.calls ++ frame) != 0) = true then -EIO_errno else 0 := by
    by_cases h : w.status (w.calls ++ frame) = 0 <;> simp [h]
  rw [this, int_or_code]

theorem res_or_command_send (b : Bool) (s0 : ssd1306) (w : TwoWire) (c : ssd1306 → Nat)
    (hi : s0.m_interface = interface.INTERFACE_I2C) :
    res_or (if b = true then -EIO_errno else 0, s0.with_bus w)
        (fun s => s.command_send (c s))
      = (if (b || (w.status (w.calls
            ++ command_frame0 s0.m_i2c_address (c (s0.with_bus w))) != 0)) = true
          then -EIO_errno else 0,
         s0.with_bus (w.advance (command_frame0 s0.m_i2c_address (c (s0.with_bus w))))) :=
  res_or_transaction b s0 w _ _
    (command_send_i2c (s0.with_bus w) (c (s0.with_bus w)) hi)

theorem res_or_command_send1 (b : Bool) (s0 : ssd1306) (w : TwoWire) (c : Nat)
    (p : ssd1306 → Nat) (hi : s0.m_interface = interface.INTERFACE_I2C) :
    res_or (if b = true then -EIO_errno else 0, s0.with_bus w)
        (fun s => s.command_send1 c (p s))
      = (if (b || (w.status (w.calls
            ++ command_frame1 s0.m_i2c_address c (p (s0.with_bus w))) != 0)) = true
          then -EIO_errno else 0,
         s0.with_bus (w.advance (command_frame1 s0.m_i2c_address c (p (s0.with_bus w))))) :=
  res_or_transaction b s0 w _ _
    (command_send1_i2c (s0.with_bus w) c (p (s0.with_bus w)) hi)

theorem res_or_command_send2 (b : Bool) (s0 : ssd1306) (w : TwoWire) (c p1 : Nat)
    (p2 : ssd1306 → Nat) (hi : s0.m_interface = interface.INTERFACE_I2C) :
    res_or (if b = true then -EIO_errno else 0, s0.with_bus w)
        (fun s => s.command_send2 c p1 (p2 s))
      = (if (b || (w.status (w.calls
            ++ command_frame s0.m_i2c_address c p1 (p2 (s0.with_bus w))) != 0)) = true
          then -EIO_errno else 0,
         s0.with_bus (w.advance
          (command_frame s0.m_i2c_address c p1 (p2 (s0.with_bus w))))) :=
  res_or_transaction b s0 w _ _
    (command_send2_i2c (s0.with_bus w) c p1 (p2 (s0.with_bus w)) hi)

theorem res_or_data_send_byte (b : Bool) (s0 : ssd1306) (w : TwoWire) (d : Nat)
    (hi : s0.m_interface = interface.INTERFACE_I2C) :
    res_or (if b = true then -EIO_errno else 0, s0.with_bus w)
        (fun s => s.data_send_byte d)
      = (if (b || (w.status (w.calls ++ data_byte_frame s0.m_i2c_address d) != 0)) = true
          then -EIO_errno else 0,
         s0.with_bus (w.advance (data_byte_frame s0.m_i2c_address d))) :=
  res_or_transaction b s0 w _ _ (data_send_byte_i2c (s0.with_bus w) d hi)

theorem any_failed_append (frames : List (List WireCall)) :
    ∀ (w : TwoWire) (more : List (List WireCall)),
      w.any_failed (frames ++ more)
        = (w.any_failed frames || (w.advance frames.flatten).any_failed more) := by
  induction frames with
  | nil => intro w more; simp [TwoWire.any_failed, TwoWire.advance]
  | cons frame frames ih =>
    intro w more
    show (w.status (w.calls ++ frame) != 0
        || (w.advance frame).any_failed (frames ++ more))
      = ((w.status (w.calls ++ frame) != 0 || (w.advance frame).any_failed frames)
        || (w.advance (frame ++ frames.flatten)).any_failed more)
    rw [ih, advance_advance, Bool.or_assoc]

/-- The byte loop of `setup`: `n` statements `res |= data_send(0x00)`. -/
theorem setup_inner_loop (s0 : ssd1306) (hi : s0.m_interface = interface.INTERFACE_I2C)
    (n : Nat) : ∀ (b : Bool) (w : TwoWire),
    (List.range n).foldl (fun st _ => res_or st (fun s => s.data_send_byte 0x00))
        ((if b = true then -EIO_errno else 0 : Int), s0.with_bus w)
      = (if (b || w.any_failed
            (List.replicate n (data_byte_frame s0.m_i2c_address 0x00))) = true
          then -EIO_errno else 0,
         s0.with_bus (w.advance
          (List.replicate n (data_byte_frame s0.m_i2c_address 0x00)).flatten)) := by
  induction n with
  | zero => intro b w; simp [TwoWire.any_failed, TwoWire.advance, with_bus]
  | succ n ih =>
    intro b w
    rw [List.range_succ, List.foldl_append, ih]
    simp only [List.foldl_cons, List.foldl_nil]
    rw [res_or_data_send_byte _ s0 _ 0x00 hi]
    rw [List.replicate_succ', any_failed_append, List.flatten_append]
    simp only [TwoWire.any_failed, List.flatten_cons, List.flatten_nil, List.append_nil,
      Bool.or_false, Bool.or_assoc, advance_advance, advance_calls]

/-- The two nested loops of `setup`. -/
theorem setup_loops (s0 : ssd1306) (hi : s0.m_interface = interface.INTERFACE_I2C)
    (m : Nat) (n : Nat) : ∀ (b : Bool) (w : TwoWire),
    (List.range n).foldl (fun st _ => (List.range m).foldl
        (fun st _ => res_or st (fun s => s.data_send_byte 0x00)) st)
        ((if b = true then -EIO_errno else 0 : Int), s0.with_bus w)
      = (if (b || w.any_failed
            (List.replicate (m * n) (data_byte_frame s0.m_i2c_address 0x00))) = true
          then -EIO_errno else 0,
         s0.with_bus (w.advance
          (List.replicate (m * n) (data_byte_frame s0.m_i2c_address 0x00)).flatten)) := by
  induction n with
  | zero => intro b w; simp [TwoWire.any_failed, TwoWire.advance, with_bus]
  | succ n ih =>
    intro b w
    rw [List.range_succ, List.foldl_append, ih]
    simp only [List.foldl_cons, List.foldl_nil]
    rw [setup_inner_loop s0 hi m, Nat.mul_succ, List.replicate_add, any_failed_append,
      List.flatten_append, advance_advance, Bool.or_assoc]

/-- `setup` with a valid address, as one run of transactions. -/
theorem setup_valid (s : ssd1306) (i2c_library : TwoWire) (i2c_address : Nat)
    (pin_res : Int) (buffer : List Nat)
    (ha : i2c_address = 0x3C ∨ i2c_address = 0x3D) :
    ∃ (b : Bool) (w : TwoWire),
      s.setup i2c_library i2c_address pin_res buffer
        = (if b = true then -EIO_errno else 0,
           { s with
              m_interface := interface.INTERFACE_I2C
              m_i2c_library := w
              m_i2c_address := i2c_address
              m_buffer := buffer },
           [ArduinoCall.pinMode pin_res ArduinoCall.OUTPUT,
            ArduinoCall.digitalWrite pin_res ArduinoCall.LOW, ArduinoCall.delay 1,
            ArduinoCall.digitalWrite pin_res ArduinoCall.HIGH, ArduinoCall.delay 1]) ∧
      b = i2c_library.any_failed
        ([command_frame0 i2c_address 0xAE, command_frame1 i2c_address 0xD5 0x80,
          command_frame1 i2c_address 0xA8 (u8 ((s.m_active_height : Int) - 1)),
          command_frame1 i2c_address 0xD3 0x00, command_frame0 i2c_address 0x40,
          command_frame1 i2c_address 0x8D 0x14, command_frame1 i2c_address 0x20 0x00,
          command_frame0 i2c_address 0xA1, command_frame0 i2c_address 0xC8,
          command_frame1 i2c_address 0xDA 0x02, command_frame1 i2c_address 0x81 0x64,
          command_frame1 i2c_address 0xD9 0xF1, command_frame1 i2c_address 0xDB 0x20,
          command_frame0 i2c_address 0xA4, command_frame0 i2c_address 0xA6,
          command_frame i2c_address 0x21 0 (u8 ((s.m_active_width : Int) - 1)),
          command_frame i2c_address 0x22 0 (u8 ((s.m_active_height : Int) / 8 - 1))]
          ++ List.replicate (s.m_active_width * (s.m_active_height / 8))
              (data_byte_frame i2c_address 0x00)
          ++ [command_frame0 i2c_address 0xAF]) ∧
      w = i2c_library.advance
        ([command_frame0 i2c_address 0xAE, command_frame1 i2c_address 0xD5 0x80,
          command_frame1 i2c_address 0xA8 (u8 ((s.m_active_height : Int) - 1)),
          command_frame1 i2c_address 0xD3 0x00, command_frame0 i2c_address 0x40,
          command_frame1 i2c_address 0x8D 0x14, command_frame1 i2c_address 0x20 0x00,
          command_frame0 i2c_address 0xA1, command_frame0 i2c_address 0xC8,
          command_frame1 i2c_address 0xDA 0x02, command_frame1 i2c_address 0x81 0x64,
          command_frame1 i2c_address 0xD9 0xF1, command_frame1 i2c_address 0xDB 0x20,
          command_frame0 i2c_address 0xA4, command_frame0 i2c_address 0xA6,
          command_frame i2c_address 0x21 0 (u8 ((s.m_active_width : Int) - 1)),
          command_frame i2c_address 0x22 0 (u8 ((s.m_active_height : Int) / 8 - 1))]
          ++ List.replicate (s.m_active_width * (s.m_active_height / 8))
              (data_byte_frame i2c_address 0x00)
          ++ [command_frame0 i2c_address 0xAF]).flatten := by
  have hna : ¬ (i2c_address ≠ 0x3C ∧ i2c_address ≠ 0x3D) := by omega
  unfold setup
  rw [if_neg hna]
  dsimp only
  generalize hs1 : ({ s with
      m_interface := interface.INTERFACE_I2C
      m_i2c_library := i2c_library
      m_i2c_address := i2c_address
      m_buffer := buffer } : ssd1306) = s1
  have hi : s1.m_interface = interface.INTERFACE_I2C := by rw [← hs1]
  have hadr : s1.m_i2c_address = i2c_address := by rw [← hs1]
  have hw1 : s1.m_active_width = s.m_active_width := by rw [← hs1]
  have hh1 : s1.m_active_height = s.m_active_height := by rw [← hs1]
  have h0 : ((0 : Int), s1)
      = (if false = true then -EIO_errno else 0, s1.with_bus i2c_library) := by
    rw [← hs1]; rfl
  have e1 : u8 (int_or 64 0) = 0x40 := by decide
  have e2 : u8 (int_or 160 1) = 0xA1 := by decide
  generalize hst : res_or (List.foldl _ _ _) _ = st
  rw [h0] at hst
  rw [res_or_command_send _ s1 _ _ hi, res_or_command_send1 _ s1 _ _ _ hi,
    res_or_command_send1 _ s1 _ _ _ hi, res_or_command_send1 _ s1 _ _ _ hi,
    res_or_command_send _ s1 _ _ hi, res_or_command_send1 _ s1 _ _ _ hi,
    res_or_command_send1 _ s1 _ _ _ hi, res_or_command_send _ s1 _ _ hi,
    res_or_command_send _ s1 _ _ hi, res_or_command_send1 _ s1 _ _ _ hi,
    res_or_command_send1 _ s1 _ _ _ hi, res_or_command_send1 _ s1 _ _ _ hi,
    res_or_command_send1 _ s1 _ _ _ hi, res_or_command_send _ s1 _ _ hi,
    res_or_command_send _ s1 _ _ hi, res_or_command_send2 _ s1 _ _ _ _ hi,
    res_or_command_send2 _ s1 _ _ _ _ hi, setup_loops s1 hi,
    res_or_command_send _ s1 _ _ hi] at hst
  simp only [with_bus_height, with_bus_width, hadr, hw1, hh1, e1, e2] at hst
  have key : ∃ (b : Bool) (w : TwoWire),
      st = (if b = true then -EIO_errno else 0, s1.with_bus w) ∧
      b = i2c_library.any_failed
        ([command_frame0 i2c_address 0xAE, command_frame1 i2c_address 0xD5 0x80,
          command_frame1 i2c_address 0xA8 (u8 ((s.m_active_height : Int) - 1)),
          command_frame1 i2c_address 0xD3 0x00, command_frame0 i2c_address 0x40,
          command_frame1 i2c_address 0x8D 0x14, command_frame1 i2c_address 0x20 0x00,
          command_frame0 i2c_address 0xA1, command_frame0 i2c_address 0xC8,
          command_frame1 i2c_address 0xDA 0x02, command_frame1 i2c_address 0x81 0x64,
          command_frame1 i2c_address 0xD9 0xF1, command_frame1 i2c_address 0xDB 0x20,
          command_frame0 i2c_address 0xA4, command_frame0 i2c_address 0xA6,
          command_frame i2c_address 0x21 0 (u8 ((s.m_active_width : Int) - 1)),
          command_frame i2c_address 0x22 0 (u8 ((s.m_active_height : Int) / 8 - 1))]
          ++ List.replicate (s.m_active_width * (s.m_active_height / 8))
              (data_byte_frame i2c_address 0x00)
          ++ [command_frame0 i2c_address 0xAF]) ∧
      w = i2c_library.advance
        ([command_frame0 i2c_address 0xAE, command_frame1 i2c_address 0xD5 0x80,
          command_frame1 i2c_address 0xA8 (u8 ((s.m_active_height : Int) - 1)),
          command_frame1 i2c_address 0xD3 0x00, command_frame0 i2c_address 0x40,
          command_frame1 i2c_address 0x8D 0x14, command_frame1 i2c_address 0x20 0x00,
          command_frame0 i2c_address 0xA1, command_frame0 i2c_address 0xC8,
          command_frame1 i2c_address 0xDA 0x02, command_frame1 i2c_address 0x81 0x64,
          command_frame1 i2c_address 0xD9 0xF1, command_frame1 i2c_address 0xDB 0x20,
          command_frame0 i2c_address 0xA4, command_frame0 i2c_address 0xA6,
          command_frame i2c_address 0x21 0 (u8 ((s.m_active_width : Int) - 1)),
          command_frame i2c_address 0x22 0 (u8 ((s.m_active_height : Int) / 8 - 1))]
          ++ List.replicate (s.m_active_width * (s.m_active_height / 8))
              (data_byte_frame i2c_address 0x00)
          ++ [command_frame0 i2c_address 0xAF]).flatten := by
    refine ⟨_, _, hst.symm, ?_, ?_⟩
    · rw [any_failed_append, any_failed_append]
      simp only [TwoWire.any_failed, List.flatten_cons, List.flatten_nil, List.flatten_append,
        advance_advance, advance_calls, advance_status, Bool.or_assoc, Bool.false_or,
        Bool.or_false, List.append_assoc, List.append_nil]
    · simp only [List.flatten_cons, List.flatten_nil, List.flatten_append, advance_advance,
        List.append_assoc, List.append_nil]
  obtain ⟨b, w, hst2, hb, hw⟩ := key
  refine ⟨b, w, ?_, hb, hw⟩
  rw [hst2, ← hs1]
  cases b <;> rfl

/-! ## Setup and construction: the claims -/

/-- C13: `setup()` with a valid address (0x3C or 0x3D) on a panel with
`1 <= width < 256` and `8 <= height < 256` issues the same sequence of bus
transactions whatever the transport answers: 17 configuration commands that
begin with display-off `0xAE` and include multiplex `height - 1`, column range
`0 .. width - 1` and page range `0 .. height / 8 - 1`, then
`width * (height / 8)` data transactions `[0x40, 0x00]`, then display-on `0xAF`.
It returns `-EIO` exactly when the `endTransmission` of at least one of these
transactions reported a failure, and 0 otherwise. -/
theorem setup_issues_fixed_sequence (s : ssd1306) (i2c_library : TwoWire)
    (i2c_address : Nat) (pin_res : Int) (buffer : List Nat)
    (ha : i2c_address = 0x3C ∨ i2c_address = 0x3D)
    (hw : 1 ≤ s.m_active_width ∧ s.m_active_width < 256)
    (hh : 8 ≤ s.m_active_height ∧ s.m_active_height < 256) :
    ∃ frames : List (List WireCall),
      frames =
        [command_frame0 i2c_address 0xAE, command_frame1 i2c_address 0xD5 0x80,
          command_frame1 i2c_address 0xA8 (s.m_active_height - 1),
          command_frame1 i2c_address 0xD3 0x00, command_frame0 i2c_address 0x40,
          command_frame1 i2c_address 0x8D 0x14, command_frame1 i2c_address 0x20 0x00,
          command_frame0 i2c_address 0xA1, command_frame0 i2c_address 0xC8,
          command_frame1 i2c_address 0xDA 0x02, command_frame1 i2c_address 0x81 0x64,
          command_frame1 i2c_address 0xD9 0xF1, command_frame1 i2c_address 0xDB 0x20,
          command_frame0 i2c_address 0xA4, command_frame0 i2c_address 0xA6,
          command_frame i2c_address 0x21 0 (s.m_active_width - 1),
          command_frame i2c_address 0x22 0 (s.m_active_height / 8 - 1)]
          ++ List.replicate (s.m_active_width * (s.m_active_height / 8))
              (data_byte_frame i2c_address 0x00)
          ++ [command_frame0 i2c_address 0xAF] ∧
      (s.setup i2c_library i2c_address pin_res buffer).2.1.m_i2c_library.calls
        = i2c_library.calls ++ frames.flatten ∧
      ((s.setup i2c_library i2c_address pin_res buffer).1 = -EIO_errno
        ↔ i2c_library.any_failed frames = true) ∧
      ((s.setup i2c_library i2c_address pin_res buffer).1 = 0
        ↔ i2c_library.any_failed frames = false) := by
  obtain ⟨b, w, heq, hb, hw2⟩ := setup_valid s i2c_library i2c_address pin_res buffer ha
  have e1 : u8 ((s.m_active_height : Int) - 1) = s.m_active_height - 1 := by
    unfold u8; omega
  have e2 : u8 ((s.m_active_width : Int) - 1) = s.m_active_width - 1 := by
    unfold u8; omega
  have e3 : u8 ((s.m_active_height : Int) / 8 - 1) = s.m_active_height / 8 - 1 := by
    unfold u8; omega
  rw [e1, e2, e3] at hb hw2
  refine ⟨_, rfl, ?_, ?_, ?_⟩
  · rw [heq, hw2]; rfl
  · rw [heq, ← hb]
    cases b <;> simp [EIO_errno]
  · rw [heq, ← hb]
    cases b <;> simp [EIO_errno]

set_option maxRecDepth 100000 in
/-- Witness of C13 on a 4 x 8 panel with a transport whose third transaction
fails: the 17 commands, 4 data transactions and display-on are all issued and
`setup()` returns `-EIO`. -/
theorem setup_issues_fixed_sequence_witness :
    ((construct 4 8).setup wire_third_fails 0x3C 4 [0, 0, 0, 0]).1 = -EIO_errno ∧
    ∃ frames : List (List WireCall),
      frames =
        [command_frame0 0x3C 0xAE, command_frame1 0x3C 0xD5 0x80,
          command_frame1 0x3C 0xA8 7,
          command_frame1 0x3C 0xD3 0x00, command_frame0 0x3C 0x40,
          command_frame1 0x3C 0x8D 0x14, command_frame1 0x3C 0x20 0x00,
          command_frame0 0x3C 0xA1, command_frame0 0x3C 0xC8,
          command_frame1 0x3C 0xDA 0x02, command_frame1 0x3C 0x81 0x64,
          command_frame1 0x3C 0xD9 0xF1, command_frame1 0x3C 0xDB 0x20,
          command_frame0 0x3C 0xA4, command_frame0 0x3C 0xA6,
          command_frame 0x3C 0x21 0 3,
          command_frame 0x3C 0x22 0 0]
          ++ List.replicate 4 (data_byte_frame 0x3C 0x00)
          ++ [command_frame0 0x3C 0xAF] ∧
      ((construct 4 8).setup wire_third_fails 0x3C 4 [0, 0, 0, 0]).2.1.m_i2c_library.calls
        = wire_third_fails.calls ++ frames.flatten ∧
      (((construct 4 8).setup wire_third_fails 0x3C 4 [0, 0, 0, 0]).1 = -EIO_errno
        ↔ wire_third_fails.any_failed frames = true) ∧
      (((construct 4 8).setup wire_third_fails 0x3C 4 [0, 0, 0, 0]).1 = 0
        ↔ wire_third_fails.any_failed frames = false) :=
  ⟨by decide,
    setup_issues_fixed_sequence (construct 4 8) wire_third_fails 0x3C 4 [0, 0, 0, 0]
      (Or.inl rfl) ⟨by decide, by decide⟩ ⟨by decide, by decide⟩⟩

/-- C14: for every bus address other than 0x3C and 0x3D `setup()` returns
`-EINVAL`, makes no call on the reset pin and leaves the driver as it was
(interface, stored address, buffer and transport with its call log), so no bus
transaction is issued. -/
theorem setup_rejects_address (s : ssd1306) (i2c_library : TwoWire)
    (i2c_address : Nat) (pin_res : Int) (buffer : List Nat)
    (ha : i2c_address ≠ 0x3C ∧ i2c_address ≠ 0x3D) :
    (s.setup i2c_library i2c_address pin_res buffer).1 = -EINVAL_errno ∧
    (s.setup i2c_library i2c_address pin_res buffer).2.2 = [] ∧
    (s.setup i2c_library i2c_address pin_res buffer).2.1 = s ∧
    (s.setup i2c_library i2c_address pin_res buffer).2.1.m_i2c_library.calls
      = s.m_i2c_library.calls ∧
    (s.setup i2c_library i2c_address pin_res buffer).2.1.m_interface = s.m_interface ∧
    (s.setup i2c_library i2c_address pin_res buffer).2.1.m_i2c_address = s.m_i2c_address ∧
    (s.setup i2c_library i2c_address pin_res buffer).2.1.m_buffer = s.m_buffer := by
  unfold setup
  rw [if_pos ha]
  exact ⟨rfl, rfl, rfl, rfl, rfl, rfl, rfl⟩

/-- Witness of C14: address 0x01 on a freshly constructed 128 x 64 driver. -/
theorem setup_rejects_address_witness :
    ((construct 128 64).setup wire_ok 0x01 4 (List.replicate 1024 0)).1 = -EINVAL_errno ∧
    ((construct 128 64).setup wire_ok 0x01 4 (List.replicate 1024 0)).2.2 = [] ∧
    ((construct 128 64).setup wire_ok 0x01 4 (List.replicate 1024 0)).2.1 = construct 128 64 :=
  have h := setup_rejects_address (construct 128 64) wire_ok 0x01 4 (List.replicate 1024 0)
    ⟨by decide, by decide⟩
  ⟨h.1, h.2.1, h.2.2.1⟩

/-- What C11 says fails for `ssd1306(128, 64)`: the constructed dirty rectangle is
(127, 0, 63, 0), not (0, 127, 0, 63), which is what `clear()` sets. -/
theorem construct_128x64_not_full_panel :
    (construct 128 64).redraw = (127, 0, 63, 0) ∧
    (construct 128 64).redraw ≠ (0, 127, 0, 63) ∧
    (construct 128 64).clear.2.redraw = (0, 127, 0, 63) := by
  decide

/-- C11 as amended: a freshly constructed driver `ssd1306(width, height)` has its
dirty rectangle initialised to the empty encoding `x_min = width - 1`,
`x_max = 0`, `y_min = height - 1`, `y_max = 0` (the differences taken in 8 bit
arithmetic, so `width - 1` and `height - 1` for sizes from 1 to 255); this is the
rectangle a successful `display()` leaves on a panel of that size. -/
theorem construct_redraw_empty (width height : Nat) :
    ((construct width height).m_redraw_x_panel_min : Int) = ((width : Int) - 1) % 256 ∧
    (construct width height).m_redraw_x_panel_max = 0 ∧
    ((construct width height).m_redraw_y_panel_min : Int) = ((height : Int) - 1) % 256 ∧
    (construct width height).m_redraw_y_panel_max = 0 ∧
    (1 ≤ width → width < 256 → 1 ≤ height → height < 256 →
      (construct width height).redraw = (width - 1, 0, height - 1, 0)) ∧
    (∀ (fuel : Nat) (s t : ssd1306), s.m_active_width = width → s.m_active_height = height →
      s.display fuel = some (0, t) → t.redraw = (construct width height).redraw) := by
  refine ⟨?_, rfl, ?_, rfl, ?_, ?_⟩
  · show ((u8 _ : Nat) : Int) = _
    unfold u8; omega
  · show ((u8 _ : Nat) : Int) = _
    unfold u8; omega
  · intro h1 h2 h3 h4
    show (u8 _, 0, u8 _, 0) = _
    rw [show u8 ((width : Int) - 1) = width - 1 by unfold u8; omega,
      show u8 ((height : Int) - 1) = height - 1 by unfold u8; omega]
  · intro fuel s t hw hh hd
    rw [(display_success_state fuel s t hd).2.2.2.2.2.2.2, hw, hh]
    rfl

/-- Witness of C11 as amended for `ssd1306(128, 64)`. -/
theorem construct_redraw_empty_witness :
    (construct 128 64).redraw = (127, 0, 63, 0) :=
  (construct_redraw_empty 128 64).2.2.2.2.1 (by decide) (by decide) (by decide) (by decide)

/-! ## Brightness and the graphics entry point -/

/-- The contrast level of an accepted ratio fits the 8 bit register. -/
theorem brightness_level (ratio : ℚ) (h0 : 0 ≤ ratio) (h1 : ratio ≤ 1) :
    0 ≤ ⌊ratio * 255⌋ ∧ ⌊ratio * 255⌋ ≤ 255 := by
  constructor
  · exact Int.floor_nonneg.mpr (by positivity)
  · have h : ratio * 255 < ((256 : Int) : ℚ) := by push_cast; linarith
    have := Int.floor_lt.mpr h
    omega

/-- C15, over exact rational ratios: `brightness_set(ratio)` returns `-EINVAL`
and sends nothing when `ratio < 0` or `ratio > 1`; for `0 <= ratio <= 1` it is the
call `command_send(0x81, floor(ratio * 255))`, whose result it returns, and on an
I2C driver that call is the single transaction
`[0x00, 0x81, floor(ratio * 255)]` with result 0 or `-EIO`; on an I2C driver the
result is `-EINVAL` exactly when the ratio is out of range. -/
theorem brightness_set_contract (s : ssd1306) (ratio : ℚ) :
    ((ratio < 0 ∨ ratio > 1) → s.brightness_set ratio = (-EINVAL_errno, s)) ∧
    (0 ≤ ratio → ratio ≤ 1 →
      ∃ level : Nat, (level : Int) = ⌊ratio * 255⌋ ∧ level ≤ 255 ∧
        s.brightness_set ratio = s.command_send1 0x81 level ∧
        (s.m_interface = interface.INTERFACE_I2C →
          (s.brightness_set ratio).2.m_i2c_library.calls = s.m_i2c_library.calls
            ++ [WireCall.beginTransmission s.m_i2c_address, WireCall.write 0x00,
                WireCall.write 0x81, WireCall.write level, WireCall.endTransmission true] ∧
          ((s.brightness_set ratio).1 = 0 ∨ (s.brightness_set ratio).1 = -EIO_errno))) ∧
    (s.m_interface = interface.INTERFACE_I2C →
      ((s.brightness_set ratio).1 = -EINVAL_errno ↔ (ratio < 0 ∨ ratio > 1))) := by
  have hin : 0 ≤ ratio → ratio ≤ 1 →
      ∃ level : Nat, (level : Int) = ⌊ratio * 255⌋ ∧ level ≤ 255 ∧
        s.brightness_set ratio = s.command_send1 0x81 level ∧
        (s.m_interface = interface.INTERFACE_I2C →
          (s.brightness_set ratio).2.m_i2c_library.calls = s.m_i2c_library.calls
            ++ [WireCall.beginTransmission s.m_i2c_address, WireCall.write 0x00,
                WireCall.write 0x81, WireCall.write level, WireCall.endTransmission true] ∧
          ((s.brightness_set ratio).1 = 0 ∨ (s.brightness_set ratio).1 = -EIO_errno)) := by
    intro h0 h1
    obtain ⟨f0, f1⟩ := brightness_level ratio h0 h1
    have hlevel : u8 ⌊ratio * 255⌋ = ⌊ratio * 255⌋.toNat := by unfold u8; omega
    have hbs : s.brightness_set ratio = s.command_send1 0x81 ⌊ratio * 255⌋.toNat := by
      unfold brightness_set
      rw [if_neg (by rintro (h | h) <;> linarith), hlevel]
    refine ⟨⌊ratio * 255⌋.toNat, by omega, by omega, hbs, ?_⟩
    intro hi
    rw [hbs, command_send1_i2c s _ _ hi]
    refine ⟨rfl, ?_⟩
    dsimp only
    split_ifs
    · right; rfl
    · left; rfl
  refine ⟨?_, hin, ?_⟩
  · intro h
    unfold brightness_set
    rw [if_pos h]
  · intro hi
    constructor
    · intro hr
      by_contra hn
      have h0 : 0 ≤ ratio := by by_contra h; exact hn (Or.inl (not_le.mp h))
      have h1 : ratio ≤ 1 := by by_contra h; exact hn (Or.inr (not_le.mp h))
      obtain ⟨level, -, -, -, hres⟩ := hin h0 h1
      rcases (hres hi).2 with h | h <;> rw [h] at hr <;> exact absurd hr (by decide)
    · intro h
      unfold brightness_set
      rw [if_pos h]

/-- Witness of C15: ratio 3/2 is rejected and nothing is sent; ratio 1/2 sends the
contrast command with parameter 127. -/
theorem brightness_set_contract_witness :
    (panel 128 64 0 wire_ok).brightness_set (3 / 2)
      = (-EINVAL_errno, panel 128 64 0 wire_ok) ∧
    ∃ level : Nat, (level : Int) = 127 ∧
      (panel 128 64 0 wire_ok).brightness_set (1 / 2)
        = (panel 128 64 0 wire_ok).command_send1 0x81 level := by
  refine ⟨(brightness_set_contract (panel 128 64 0 wire_ok) (3 / 2)).1
    (Or.inr (by norm_num)), ?_⟩
  obtain ⟨level, h1, -, h3, -⟩ := (brightness_set_contract (panel 128 64 0 wire_ok)
    (1 / 2)).2.1 (by norm_num) (by norm_num)
  refine ⟨level, ?_, h3⟩
  rw [h1, Int.floor_eq_iff]
  constructor <;> norm_num

set_option maxRecDepth 100000 in
/-- C18 at a failing input. On the blank 128 x 64 panel at rotation 0 the
logical point (256, 0) is outside the canvas (256 >= 128) and so is (-250, 3).
`drawPixel(256, 0, 1)` narrows x to 0 and lights the panel pixel (0, 0): byte 0
becomes 1 and the dirty rectangle goes from (127, 0, 63, 0) to (0, 0, 0, 0).
`drawPixel(-250, 3, 1)` narrows x to 6 and changes byte 6. -/
theorem drawPixel_128x64_wraps :
    (panel 128 64 0 wire_ok).redraw = (127, 0, 63, 0) ∧
    ((panel 128 64 0 wire_ok).drawPixel 256 0 1).m_buffer.getD 0 0 = 1 ∧
    ((panel 128 64 0 wire_ok).drawPixel 256 0 1).m_buffer ≠ (panel 128 64 0 wire_ok).m_buffer ∧
    ((panel 128 64 0 wire_ok).drawPixel 256 0 1).redraw = (0, 0, 0, 0) ∧
    ((panel 128 64 0 wire_ok).drawPixel (-250) 3 1).m_buffer.getD 6 0 = 8 ∧
    ((panel 128 64 0 wire_ok).drawPixel (-250) 3 1).redraw = (6, 6, 3, 3) := by
  decide

/-! ## The dirty rectangle as a bounding box -/

/-- `pixel_set` keeps the rotation, the panel size and the buffer length. -/
theorem pixel_set_geometry (s : ssd1306) (x y color : Nat) :
    (s.pixel_set x y color).2.rotation = s.rotation ∧
    (s.pixel_set x y color).2.m_active_width = s.m_active_width ∧
    (s.pixel_set x y color).2.m_active_height = s.m_active_height ∧
    (s.pixel_set x y color).2.m_buffer.length = s.m_buffer.length := by
  cases hm : s.m_rotation_handle x y with
  | error e => rw [pixel_set_error s x y color e hm]; exact ⟨rfl, rfl, rfl, rfl⟩
  | ok p =>
    obtain ⟨xp, yp⟩ := p
    by_cases hp : page_modified (s.m_buffer.getD (s.page_index xp yp) 0) yp color
        = s.m_buffer.getD (s.page_index xp yp) 0
    · rw [pixel_set_same s x y color xp yp hm hp]; exact ⟨rfl, rfl, rfl, rfl⟩
    · obtain ⟨-, hr, hw2, hh2, -, -, -, hbuf, -⟩ := pixel_set_changed s x y color xp yp hm hp
      exact ⟨hr, hw2, hh2, by rw [hbuf, List.length_set]⟩

/-- Writing a different value at an index inside a list changes the list. -/
theorem set_ne_self (l : List Nat) (i v : Nat) (hi : i < l.length) (hv : v ≠ l.getD i 0) :
    l.set i v ≠ l := by
  intro h
  apply hv
  have h2 : (l.set i v).getD i 0 = l.getD i 0 := by rw [h]
  rw [List.getD_eq_getElem _ _ (by rw [List.length_set]; exact hi), List.getElem_set_self] at h2
  exact h2

/-- One call of `pixel_sets`: either the buffer and the dirty rectangle stay as
they are, or the buffer changes and the rectangle is widened by the panel point
of the call, which lies in the panel. -/
theorem pixel_set_step (s : ssd1306) (x y color : Nat) (calls : List (Nat × Nat × Nat))
    (hw : s.m_active_width < 256) (hh : s.m_active_height < 256)
    (h8 : s.m_active_height % 8 = 0)
    (hlen : s.m_buffer.length = s.m_active_width * (s.m_active_height / 8)) :
    ((s.pixel_set x y color).2.redraw = s.redraw ∧
      s.changed_points ((x, y, color) :: calls)
        = (s.pixel_set x y color).2.changed_points calls) ∨
    (∃ x_panel y_panel, x_panel < s.m_active_width ∧ y_panel < s.m_active_height ∧
      (s.pixel_set x y color).2.redraw = s.widened x_panel y_panel ∧
      s.changed_points ((x, y, color) :: calls)
        = (x_panel, y_panel) :: (s.pixel_set x y color).2.changed_points calls) := by
  cases hm : s.m_rotation_handle x y with
  | error e =>
    left
    refine ⟨by rw [pixel_set_error s x y color e hm], ?_⟩
    rw [changed_points]
    simp only [hm]
  | ok p =>
    obtain ⟨xp, yp⟩ := p
    by_cases hp : page_modified (s.m_buffer.getD (s.page_index xp yp) 0) yp color
        = s.m_buffer.getD (s.page_index xp yp) 0
    · left
      refine ⟨by rw [pixel_set_same s x y color xp yp hm hp], ?_⟩
      rw [changed_points]
      simp only [hm]
      rw [if_neg (by rw [pixel_set_same s x y color xp yp hm hp]; simp)]
    · right
      obtain ⟨hx, hy⟩ := m_rotation_handle_in_panel s x y xp yp hw hh hm
      obtain ⟨h1, h2⟩ := page_index_lt s xp yp h8 hx hy
      obtain ⟨-, -, -, -, -, -, -, hbuf, hred⟩ := pixel_set_changed s x y color xp yp hm hp
      refine ⟨xp, yp, hx, hy, hred, ?_⟩
      rw [changed_points]
      simp only [hm]
      rw [if_pos]
      rw [hbuf]
      exact set_ne_self _ _ _ (by rw [hlen]; omega) hp

/-- The dirty rectangle after a run of `pixel_set` calls: it only grows, it
covers the panel point of every call that changed the buffer, and each of its
four bounds is either the bound it started with or a coordinate of such a
point. -/
theorem pixel_sets_redraw (calls : List (Nat × Nat × Nat)) :
    ∀ s : ssd1306, s.m_active_width < 256 → s.m_active_height < 256 →
      s.m_active_height % 8 = 0 →
      s.m_buffer.length = s.m_active_width * (s.m_active_height / 8) →
      ((s.pixel_sets calls).m_redraw_x_panel_min ≤ s.m_redraw_x_panel_min ∧
        s.m_redraw_x_panel_max ≤ (s.pixel_sets calls).m_redraw_x_panel_max ∧
        (s.pixel_sets calls).m_redraw_y_panel_min ≤ s.m_redraw_y_panel_min ∧
        s.m_redraw_y_panel_max ≤ (s.pixel_sets calls).m_redraw_y_panel_max) ∧
      (∀ p ∈ s.changed_points calls,
        p.1 < s.m_active_width ∧ p.2 < s.m_active_height ∧
        (s.pixel_sets calls).m_redraw_x_panel_min ≤ p.1 ∧
        p.1 ≤ (s.pixel_sets calls).m_redraw_x_panel_max ∧
        (s.pixel_sets calls).m_redraw_y_panel_min ≤ p.2 ∧
        p.2 ≤ (s.pixel_sets calls).m_redraw_y_panel_max) ∧
      ((s.pixel_sets calls).m_redraw_x_panel_min = s.m_redraw_x_panel_min ∨
        ∃ p ∈ s.changed_points calls, p.1 = (s.pixel_sets calls).m_redraw_x_panel_min) ∧
      ((s.pixel_sets calls).m_redraw_x_panel_max = s.m_redraw_x_panel_max ∨
        ∃ p ∈ s.changed_points calls, p.1 = (s.pixel_sets calls).m_redraw_x_panel_max) ∧
      ((s.pixel_sets calls).m_redraw_y_panel_min = s.m_redraw_y_panel_min ∨
        ∃ p ∈ s.changed_points calls, p.2 = (s.pixel_sets calls).m_redraw_y_panel_min) ∧
      ((s.pixel_sets calls).m_redraw_y_panel_max = s.m_redraw_y_panel_max ∨
        ∃ p ∈ s.changed_points calls, p.2 = (s.pixel_sets calls).m_redraw_y_panel_max) := by
  induction calls with
  | nil =>
    intro s _ _ _ _
    simp [pixel_sets, changed_points]
  | cons c calls ih =>
    intro s hw hh h8 hlen
    obtain ⟨x, y, color⟩ := c
    obtain ⟨-, gw, gh, gl⟩ := pixel_set_geometry s x y color
    have hfold : s.pixel_sets ((x, y, color) :: calls)
        = (s.pixel_set x y color).2.pixel_sets calls := rfl
    have ih1 := ih (s.pixel_set x y color).2 (by rw [gw]; exact hw) (by rw [gh]; exact hh)
      (by rw [gh]; exact h8) (by rw [gl, gw, gh]; exact hlen)
    rw [gw, gh] at ih1
    rw [hfold]
    generalize (s.pixel_set x y color).2.pixel_sets calls = t at ih1 ⊢
    obtain ⟨⟨m1, m2, m3, m4⟩, hcov, hb⟩ := ih1
    rcases pixel_set_step s x y color calls hw hh h8 hlen with
      ⟨hred, hpts⟩ | ⟨xp, yp, hx, hy, hred, hpts⟩
    · simp only [redraw, Prod.mk.injEq] at hred
      obtain ⟨r1, r2, r3, r4⟩ := hred
      rw [hpts]
      rw [r1, r2, r3, r4] at hb
      rw [r1] at m1; rw [r2] at m2; rw [r3] at m3; rw [r4] at m4
      exact ⟨⟨m1, m2, m3, m4⟩, hcov, hb⟩
    · simp only [redraw, widened, Prod.mk.injEq] at hred
      obtain ⟨r1, r2, r3, r4⟩ := hred
      rw [hpts]
      have hmono : t.m_redraw_x_panel_min ≤ s.m_redraw_x_panel_min ∧
          s.m_redraw_x_panel_max ≤ t.m_redraw_x_panel_max ∧
          t.m_redraw_y_panel_min ≤ s.m_redraw_y_panel_min ∧
          s.m_redraw_y_panel_max ≤ t.m_redraw_y_panel_max := by omega
      have hpt : t.m_redraw_x_panel_min ≤ xp ∧ xp ≤ t.m_redraw_x_panel_max ∧
          t.m_redraw_y_panel_min ≤ yp ∧ yp ≤ t.m_redraw_y_panel_max := by omega
      have c1 : (s.pixel_set x y color).2.m_redraw_x_panel_min = s.m_redraw_x_panel_min ∨
          (s.pixel_set x y color).2.m_redraw_x_panel_min = xp := by omega
      have c2 : (s.pixel_set x y color).2.m_redraw_x_panel_max = s.m_redraw_x_panel_max ∨
          (s.pixel_set x y color).2.m_redraw_x_panel_max = xp := by omega
      have c3 : (s.pixel_set x y color).2.m_redraw_y_panel_min = s.m_redraw_y_panel_min ∨
          (s.pixel_set x y color).2.m_redraw_y_panel_min = yp := by omega
      have c4 : (s.pixel_set x y color).2.m_redraw_y_panel_max = s.m_redraw_y_panel_max ∨
          (s.pixel_set x y color).2.m_redraw_y_panel_max = yp := by omega
      obtain ⟨b1, b2, b3, b4⟩ := hb
      refine ⟨hmono, ?_, ?_, ?_, ?_, ?_⟩
      · intro p hp
        rcases List.mem_cons.mp hp with h | h
        · subst h
          exact ⟨hx, hy, hpt⟩
        · exact hcov p h
      · rcases b1 with h | ⟨p, hp, h⟩
        · rcases c1 with f | f
          · left; exact h.trans f
          · right; exact ⟨(xp, yp), List.mem_cons_self _ _, (h.trans f).symm⟩
        · right; exact ⟨p, List.mem_cons_of_mem _ hp, h⟩
      · rcases b2 with h | ⟨p, hp, h⟩
        · rcases c2 with f | f
          · left; exact h.trans f
          · right; exact ⟨(xp, yp), List.mem_cons_self _ _, (h.trans f).symm⟩
        · right; exact ⟨p, List.mem_cons_of_mem _ hp, h⟩
      · rcases b3 with h | ⟨p, hp, h⟩
        · rcases c3 with f | f
          · left; exact h.trans f
          · right; exact ⟨(xp, yp), List.mem_cons_self _ _, (h.trans f).symm⟩
        · right; exact ⟨p, List.mem_cons_of_mem _ hp, h⟩
      · rcases b4 with h | ⟨p, hp, h⟩
        · rcases c4 with f | f
          · left; exact h.trans f
          · right; exact ⟨(xp, yp), List.mem_cons_self _ _, (h.trans f).symm⟩
        · right; exact ⟨p, List.mem_cons_of_mem _ hp, h⟩

/-- A point below `size` that lies between the bounds `t_min` and `t_max`
attains a bound that still has its reset value `size - 1` or `0`. -/
theorem bounding_arith (size s_min s_max t_min t_max p : Nat) (hp : p < size)
    (r1 : s_min = size - 1) (r2 : s_max = 0) (q1 : t_min ≤ p) (q2 : p ≤ t_max) :
    (t_min = s_min → p = t_min) ∧ (t_max = s_max → p = t_max) ∧ t_min ≤ t_max := by
  omega

theorem u8_pred (n : Nat) (h : n < 256) (hpos : 0 < n) : u8 ((n : Int) - 1) = n - 1 := by
  unfold u8; omega

/-- C16: start from the driver `s` left by a successful `display()` (8 bit width
and height, height a multiple of 8, buffer of `width * (height / 8)` bytes) and
run any list of `pixel_set` calls of which at least one changed the buffer. Then
the dirty rectangle is the bounding box of the panel points of the calls that
changed the buffer: it covers each of them, each of `x_min`, `x_max`, `y_min`,
`y_max` is attained by one of them, and `x_min <= x_max`, `y_min <= y_max`. -/
theorem redraw_is_bounding_box (fuel : Nat) (s0 s : ssd1306)
    (calls : List (Nat × Nat × Nat))
    (hd : s0.display fuel = some (0, s))
    (hw : s.m_active_width < 256) (hh : s.m_active_height < 256)
    (h8 : s.m_active_height % 8 = 0)
    (hlen : s.m_buffer.length = s.m_active_width * (s.m_active_height / 8))
    (hne : s.changed_points calls ≠ []) :
    (∀ p ∈ s.changed_points calls,
      (s.pixel_sets calls).m_redraw_x_panel_min ≤ p.1 ∧
      p.1 ≤ (s.pixel_sets calls).m_redraw_x_panel_max ∧
      (s.pixel_sets calls).m_redraw_y_panel_min ≤ p.2 ∧
      p.2 ≤ (s.pixel_sets calls).m_redraw_y_panel_max) ∧
    (∃ p ∈ s.changed_points calls, p.1 = (s.pixel_sets calls).m_redraw_x_panel_min) ∧
    (∃ p ∈ s.changed_points calls, p.1 = (s.pixel_sets calls).m_redraw_x_panel_max) ∧
    (∃ p ∈ s.changed_points calls, p.2 = (s.pixel_sets calls).m_redraw_y_panel_min) ∧
    (∃ p ∈ s.changed_points calls, p.2 = (s.pixel_sets calls).m_redraw_y_panel_max) ∧
    (s.pixel_sets calls).m_redraw_x_panel_min ≤ (s.pixel_sets calls).m_redraw_x_panel_max ∧
    (s.pixel_sets calls).m_redraw_y_panel_min ≤ (s.pixel_sets calls).m_redraw_y_panel_max := by
  obtain ⟨-, -, gw, gh, -, -, -, hred⟩ := display_success_state fuel s0 s hd
  rw [← gw, ← gh] at hred
  simp only [redraw, Prod.mk.injEq] at hred
  obtain ⟨r1, r2, r3, r4⟩ := hred
  obtain ⟨-, hcov, hb⟩ := pixel_sets_redraw calls s hw hh h8 hlen
  obtain ⟨p0, hp0⟩ := List.exists_mem_of_ne_nil _ hne
  obtain ⟨q1, q2, q3, q4, q5, q6⟩ := hcov p0 hp0
  rw [u8_pred _ hw (Nat.lt_of_le_of_lt (Nat.zero_le _) q1)] at r1
  rw [u8_pred _ hh (Nat.lt_of_le_of_lt (Nat.zero_le _) q2)] at r3
  obtain ⟨k1, k2, hxx⟩ := bounding_arith s.m_active_width s.m_redraw_x_panel_min
    s.m_redraw_x_panel_max (s.pixel_sets calls).m_redraw_x_panel_min
    (s.pixel_sets calls).m_redraw_x_panel_max p0.1 q1 r1 r2 q3 q4
  obtain ⟨k3, k4, hyy⟩ := bounding_arith s.m_active_height s.m_redraw_y_panel_min
    s.m_redraw_y_panel_max (s.pixel_sets calls).m_redraw_y_panel_min
    (s.pixel_sets calls).m_redraw_y_panel_max p0.2 q2 r3 r4 q5 q6
  obtain ⟨b1, b2, b3, b4⟩ := hb
  refine ⟨fun p hp => (hcov p hp).2.2, ?_, ?_, ?_, ?_, hxx, hyy⟩
  · rcases b1 with h | h
    · exact ⟨p0, hp0, k1 h⟩
    · exact h
  · rcases b2 with h | h
    · exact ⟨p0, hp0, k2 h⟩
    · exact h
  · rcases b3 with h | h
    · exact ⟨p0, hp0, k3 h⟩
    · exact h
  · rcases b4 with h | h
    · exact ⟨p0, hp0, k4 h⟩
    · exact h

/-! ## Bounding box witness and the bytes display sends -/

set_option maxRecDepth 100000 in
/-- Witness of C16 on a 16 x 16 panel: after a successful `display()` the calls
`pixel_set(3, 9, 1)`, `pixel_set(5, 2, 1)`, `pixel_set(3, 9, 1)` and
`pixel_set(20, 1, 1)` change the buffer at the panel points (3, 9) and (5, 2),
and the dirty rectangle is (3, 5, 2, 9). -/
theorem redraw_is_bounding_box_witness :
    ∃ s, (with_redraw (panel 16 16 0 wire_ok) 3 3 3 3).display 1 = some (0, s) ∧
      s.changed_points [(3, 9, 1), (5, 2, 1), (3, 9, 1), (20, 1, 1)] = [(3, 9), (5, 2)] ∧
      (s.pixel_sets [(3, 9, 1), (5, 2, 1), (3, 9, 1), (20, 1, 1)]).redraw = (3, 5, 2, 9) ∧
      (∃ p ∈ s.changed_points [(3, 9, 1), (5, 2, 1), (3, 9, 1), (20, 1, 1)],
        p.1 = (s.pixel_sets [(3, 9, 1), (5, 2, 1), (3, 9, 1), (20, 1, 1)]).m_redraw_x_panel_min) :=
  ⟨_, rfl, by decide, by decide,
    (redraw_is_bounding_box 1 (with_redraw (panel 16 16 0 wire_ok) 3 3 3 3) _
      [(3, 9, 1), (5, 2, 1), (3, 9, 1), (20, 1, 1)] rfl (by decide) (by decide) (by decide)
      (by decide) (by decide)).2.1⟩

/-- The calls of a `display()` on an I2C driver whose transport accepts
everything, for a pending dirty rectangle. -/
theorem display_accepting_trace (fuel : Nat) (s : ssd1306)
    (hi : s.m_interface = interface.INTERFACE_I2C)
    (hacc : s.m_i2c_library.accepts_everything)
    (hx : s.m_redraw_x_panel_min ≤ s.m_redraw_x_panel_max)
    (hy : s.m_redraw_y_panel_min ≤ s.m_redraw_y_panel_max)
    (hxm : s.m_redraw_x_panel_max < 256) (hym : s.m_redraw_y_panel_max < 256) :
    ∃ t, s.display (fuel + 1) = some (0, t) ∧
      t.m_i2c_library.calls = s.m_i2c_library.calls
        ++ (command_frame s.m_i2c_address 0x21 s.m_redraw_x_panel_min s.m_redraw_x_panel_max
          ++ command_frame s.m_i2c_address 0x22 (s.m_redraw_y_panel_min / 8)
              (s.m_redraw_y_panel_max / 8))
        ++ (List.range' (s.m_redraw_y_panel_min / 8)
              (s.m_redraw_y_panel_max / 8 + 1 - s.m_redraw_y_panel_min / 8)).flatMap
            (fun p => data_frame s.m_i2c_address
              ((s.m_buffer.drop (p * s.m_active_width + s.m_redraw_x_panel_min)).take
                (s.m_redraw_x_panel_max - s.m_redraw_x_panel_min + 1))
              (s.m_redraw_x_panel_max - s.m_redraw_x_panel_min + 1)) := by
  have hymin : s.m_redraw_y_panel_min < 256 := Nat.lt_of_le_of_lt hy hym
  rw [display_i2c _ _ hi]
  simp only [hacc.2, ne_eq, not_true_eq_false, if_false]
  rw [if_neg (by decide), u8_div_eight _ hymin, u8_div_eight _ hym]
  have hloop2 := fun (w : TwoWire) (hw : w.accepts_everything) =>
    display_loop_accepting fuel s.m_redraw_x_panel_min s.m_redraw_x_panel_max
      hx hxm (List.range' (s.m_redraw_y_panel_min / 8)
        (s.m_redraw_y_panel_max / 8 + 1 - s.m_redraw_y_panel_min / 8)) (s.with_bus w) hi hw
  rw [hloop2 (s.m_i2c_library.advance _) hacc]
  refine ⟨_, rfl, ?_⟩
  simp

set_option maxRecDepth 100000 in
/-- C17 at a failing input. On the 128 x 64 panel, in the state `t` left by a
successful `display()`, `pixel_set(10, 20, 1)` changes the buffer byte at index
10 from 0 to 16 and sets the dirty rectangle to (10, 10, 20, 20). The next
`display()` on the accepting transport sends one data transaction, the slice of
length 1 at index 2 * 128 + 10 = 266, whose byte is 0: index 10 lies in no slice
sent and the modified value 16 is not transmitted. -/
theorem changed_byte_128x64_not_sent :
    ∃ t, (with_redraw (panel 128 64 0 wire_ok) 5 5 5 5).display 1 = some (0, t) ∧
      t.m_buffer.getD 10 0 = 0 ∧
      (t.pixel_set 10 20 1).2.m_buffer.getD 10 0 = 16 ∧
      (t.pixel_set 10 20 1).2.redraw = (10, 10, 20, 20) ∧
      (∃ u, (t.pixel_set 10 20 1).2.display 1 = some (0, u) ∧
        u.m_i2c_library.calls = (t.pixel_set 10 20 1).2.m_i2c_library.calls ++
          [WireCall.beginTransmission 0x3C, WireCall.write 0x00, WireCall.write 0x21,
            WireCall.write 10, WireCall.write 10, WireCall.endTransmission true,
            WireCall.beginTransmission 0x3C, WireCall.write 0x00, WireCall.write 0x22,
            WireCall.write 2, WireCall.write 2, WireCall.endTransmission true,
            WireCall.beginTransmission 0x3C, WireCall.write 0x40,
            WireCall.write_buffer [0] 1, WireCall.endTransmission true]) ∧
      ¬ (∃ p, 20 / 8 ≤ p ∧ p ≤ 20 / 8 ∧ p * 128 + 10 ≤ 10 ∧ 10 ≤ p * 128 + 10) := by
  have key : ∀ S : ssd1306, S.m_interface = interface.INTERFACE_I2C →
      S.m_i2c_library.accepts_everything → S.redraw = (10, 10, 20, 20) →
      S.m_i2c_address = 0x3C → S.m_active_width = 128 →
      (S.m_buffer.drop 266).take 1 = [0] →
      ∃ u, S.display 1 = some (0, u) ∧
        u.m_i2c_library.calls = S.m_i2c_library.calls ++
          [WireCall.beginTransmission 0x3C, WireCall.write 0x00, WireCall.write 0x21,
            WireCall.write 10, WireCall.write 10, WireCall.endTransmission true,
            WireCall.beginTransmission 0x3C, WireCall.write 0x00, WireCall.write 0x22,
            WireCall.write 2, WireCall.write 2, WireCall.endTransmission true,
            WireCall.beginTransmission 0x3C, WireCall.write 0x40,
            WireCall.write_buffer [0] 1, WireCall.endTransmission true] := by
    intro S hi hacc hred hadr hwid hslice
    simp only [redraw, Prod.mk.injEq] at hred
    obtain ⟨r1, r2, r3, r4⟩ := hred
    obtain ⟨u, hu, hcalls⟩ := display_accepting_trace 0 S hi hacc
      (by rw [r1, r2]) (by rw [r3, r4]) (by rw [r2]; decide) (by rw [r4]; decide)
    refine ⟨u, hu, ?_⟩
    rw [hcalls, r1, r2, r3, r4, hadr, hwid]
    have hr : List.range' (20 / 8) (20 / 8 + 1 - 20 / 8) = [2] := by decide
    rw [hr]
    simp only [List.flatMap_cons, List.flatMap_nil, List.append_nil]
    rw [show 2 * 128 + 10 = 266 by decide, show 10 - 10 + 1 = 1 by decide, hslice]
    simp [command_frame, data_frame]
  refine ⟨_, rfl, by decide, by decide, by decide, ?_, ?_⟩
  · exact key _ rfl wire_ok_accepts (by decide) rfl rfl (by decide)
  · rintro ⟨p, h1, h2, h3, h4⟩
    omega

/-! ## Sending a payload in chunks -/

theorem advance_nil (w : TwoWire) : w.advance [] = w := by
  cases w
  simp [TwoWire.advance]

/-- One iteration of the loop of `data_send(data, length)`. -/
theorem data_send_loop_step (address : Nat) (data : List Nat) (length fuel : Nat)
    (w : TwoWire) (i : Nat) (hi : i < length) :
    data_send_loop address data length (fuel + 1) w i =
      if w.status (w.calls
          ++ data_frame address ((data.drop i).take (length - i)) (length - i)) ≠ 0
      then some (-EIO_errno,
        w.advance (data_frame address ((data.drop i).take (length - i)) (length - i)))
      else data_send_loop address data length fuel
        (w.advance (data_frame address ((data.drop i).take (length - i)) (length - i)))
        ((i + w.accepted (w.calls ++ [WireCall.beginTransmission address,
          WireCall.write 0x40,
          WireCall.write_buffer ((data.drop i).take (length - i)) (length - i)]))
          % 2 ^ SIZE_BITS) := by
  rw [data_send_loop, if_pos hi]
  simp only [TwoWire.beginTransmission, TwoWire.write, TwoWire.write_buffer,
    TwoWire.endTransmission, TwoWire.advance, data_frame, List.append_assoc,
    List.singleton_append, List.cons_append, List.nil_append]

theorem take_chunk (l : List Nat) (i a n : Nat) (h : a ≤ n) :
    (l.drop i).take a ++ (l.drop (i + a)).take (n - a) = (l.drop i).take n := by
  have hn : n = a + (n - a) := by omega
  conv_rhs => rw [hn, List.take_add]
  rw [List.drop_drop]

/-- The run of the loop of `data_send(data, length)` from the offset `i` on a
transport that accepts between one byte and all the bytes offered. -/
theorem data_send_loop_chunks (address : Nat) (data : List Nat) (length : Nat)
    (hlt : length < 2 ^ SIZE_BITS) :
    ∀ (fuel : Nat) (w : TwoWire) (i : Nat), i ≤ length → length - i ≤ fuel →
      (∀ calls d q, 1 ≤ q → 1 ≤ w.accepted (calls ++ [WireCall.write_buffer d q]) ∧
        w.accepted (calls ++ [WireCall.write_buffer d q]) ≤ q) →
      ∃ (sizes : List Nat) (r : Int),
        data_send_loop address data length fuel w i
          = some (r, w.advance (data_transactions address data length i sizes)) ∧
        reported_sizes address data length w i sizes ∧
        (∀ a ∈ sizes, 1 ≤ a) ∧
        ((r = 0 ∧ (∀ st ∈ end_statuses address data length w i sizes, st = 0) ∧
            sizes.sum = length - i ∧
            (accepted_chunks data i sizes).flatten = (data.drop i).take (length - i)) ∨
          (r = -EIO_errno ∧ ∃ oks bad,
            end_statuses address data length w i sizes = oks ++ [bad] ∧
            (∀ st ∈ oks, st = 0) ∧ bad ≠ 0)) := by
  intro fuel
  induction fuel with
  | zero =>
    intro w i hi hf _
    refine ⟨[], 0, ?_, trivial, by simp, Or.inl ⟨rfl, by simp [end_statuses], ?_, ?_⟩⟩
    · rw [data_send_loop_done _ _ _ _ _ _ (by omega)]
      simp [data_transactions, advance_nil]
    · simp; omega
    · have : length - i = 0 := by omega
      simp [accepted_chunks, this]
  | succ fuel ih =>
    intro w i hi hf hacc
    by_cases hlt2 : i < length
    · obtain ⟨ha1, ha2⟩ := hacc (w.calls ++ [WireCall.beginTransmission address,
        WireCall.write 0x40]) ((data.drop i).take (length - i)) (length - i) (by omega)
      rw [List.append_assoc] at ha1 ha2
      simp only [List.cons_append, List.nil_append] at ha1 ha2
      generalize ha : w.accepted (w.calls ++ [WireCall.beginTransmission address,
        WireCall.write 0x40,
        WireCall.write_buffer ((data.drop i).take (length - i)) (length - i)]) = a
        at ha1 ha2
      rw [data_send_loop_step _ _ _ _ _ _ hlt2, ha]
      by_cases hst : w.status (w.calls
          ++ data_frame address ((data.drop i).take (length - i)) (length - i)) = 0
      · rw [if_neg (by simpa using hst), Nat.mod_eq_of_lt (by omega)]
        obtain ⟨sizes, r, hrun, hrep, hpos, hres⟩ := ih
          (w.advance (data_frame address ((data.drop i).take (length - i)) (length - i)))
          (i + a) (by omega) (by omega) hacc
        refine ⟨a :: sizes, r, ?_, ⟨ha.symm, hrep⟩, ?_, ?_⟩
        · rw [hrun, advance_advance]; rfl
        · intro b hb
          rcases List.mem_cons.mp hb with h | h
          · rw [h]; exact ha1
          · exact hpos b h
        · rcases hres with ⟨h0, hall, hsum, hchunks⟩ | ⟨he, oks, bad, hends, hoks, hbad⟩
          · left
            refine ⟨h0, ?_, ?_, ?_⟩
            · intro st hmem
              rcases List.mem_cons.mp hmem with h | h
              · rw [h]; exact hst
              · exact hall st h
            · rw [List.sum_cons, hsum]; omega
            · show (data.drop i).take a ++ (accepted_chunks data (i + a) sizes).flatten = _
              rw [hchunks, show length - (i + a) = (length - i) - a by omega]
              exact take_chunk data i a (length - i) ha2
          · right
            refine ⟨he, w.status (w.calls
              ++ data_frame address ((data.drop i).take (length - i)) (length - i)) :: oks,
              bad, ?_, ?_, hbad⟩
            · show _ :: end_statuses address data length _ (i + a) sizes = _
              rw [hends]; rfl
            · intro st hmem
              rcases List.mem_cons.mp hmem with h | h
              · rw [h]; exact hst
              · exact hoks st h
      · rw [if_pos (by simpa using hst)]
        refine ⟨[a], -EIO_errno, ?_, ⟨ha.symm, trivial⟩, ?_, Or.inr ⟨rfl, [], _, rfl, ?_, hst⟩⟩
        · simp [data_transactions]
        · intro b hb
          rw [List.mem_singleton.mp hb]; exact ha1
        · simp
    · refine ⟨[], 0, ?_, trivial, by simp, Or.inl ⟨rfl, by simp [end_statuses], ?_, ?_⟩⟩
      · rw [data_send_loop_done _ _ _ _ _ _ hlt2]
        simp [data_transactions, advance_nil]
      · simp; omega
      · have : length - i = 0 := by omega
        simp [accepted_chunks, this]

theorem end_statuses_reported (address : Nat) (data : List Nat) (length : Nat) :
    ∀ (sizes : List Nat) (w : TwoWire) (i st : Nat),
      st ∈ end_statuses address data length w i sizes → ∃ calls, st = w.status calls := by
  intro sizes
  induction sizes with
  | nil =>
    intro w i st h
    simp [end_statuses] at h
  | cons a sizes ih =>
    intro w i st h
    rcases List.mem_cons.mp h with h | h
    · exact ⟨_, h⟩
    · obtain ⟨calls, hc⟩ := ih _ _ _ h
      exact ⟨calls, hc⟩

theorem accept_at_most_bounds (k : Nat) (hk : 1 ≤ k) (calls : List WireCall)
    (d : List Nat) (q : Nat) (hq : 1 ≤ q) :
    1 ≤ accept_at_most k (calls ++ [WireCall.write_buffer d q]) ∧
      accept_at_most k (calls ++ [WireCall.write_buffer d q]) ≤ q := by
  unfold accept_at_most
  rw [List.getLast?_concat]
  show 1 ≤ min k q ∧ min k q ≤ q
  omega

/-- C12: on an I2C driver whose transport accepts, at every `write(data, quantity)`
with `quantity ≥ 1`, at least one byte and at most `quantity` bytes,
`data_send(data, length)` returns (with `length` iterations of fuel it does not
run out). The bus receives exactly the transactions of `data_transactions`: each
is `beginTransmission`, the single prefix byte `0x40`, the `length - i` bytes
that start at the current offset `i`, `endTransmission`; and the offset advances
by the number `a ≥ 1` the transport reported. Either the result is `0`, every
transaction ended with status `0`, and the accepted chunks concatenated are
`data[0..length)`; or the result is `-EIO`, the last transaction ended with a
nonzero status, and all the earlier ones with `0`. When every `endTransmission`
succeeds the result is `0`. -/
theorem data_send_chunked (s : ssd1306) (data : List Nat) (length fuel : Nat)
    (hi : s.m_interface = interface.INTERFACE_I2C)
    (hlt : length < 2 ^ SIZE_BITS) (hfuel : length ≤ fuel)
    (hacc : ∀ calls d q, 1 ≤ q →
      1 ≤ s.m_i2c_library.accepted (calls ++ [WireCall.write_buffer d q]) ∧
      s.m_i2c_library.accepted (calls ++ [WireCall.write_buffer d q]) ≤ q) :
    ∃ (sizes : List Nat) (r : Int),
      s.data_send fuel data length
        = some (r, s.with_bus (s.m_i2c_library.advance
            (data_transactions s.m_i2c_address data length 0 sizes))) ∧
      reported_sizes s.m_i2c_address data length s.m_i2c_library 0 sizes ∧
      (∀ a ∈ sizes, 1 ≤ a) ∧
      ((r = 0 ∧
          (∀ st ∈ end_statuses s.m_i2c_address data length s.m_i2c_library 0 sizes,
            st = 0) ∧
          sizes.sum = length ∧
          (accepted_chunks data 0 sizes).flatten = data.take length) ∨
        (r = -EIO_errno ∧ ∃ oks bad,
          end_statuses s.m_i2c_address data length s.m_i2c_library 0 sizes
            = oks ++ [bad] ∧
          (∀ st ∈ oks, st = 0) ∧ bad ≠ 0)) ∧
      ((∀ calls, s.m_i2c_library.status calls = 0) → r = 0) := by
  obtain ⟨sizes, r, hrun, hrep, hpos, hres⟩ := data_send_loop_chunks s.m_i2c_address
    data length hlt fuel s.m_i2c_library 0 (Nat.zero_le _) (by omega) hacc
  refine ⟨sizes, r, ?_, hrep, hpos, ?_, ?_⟩
  · unfold data_send
    split
    · rw [hrun]
      rfl
    · next h => exact absurd hi h
  · rcases hres with ⟨h0, hall, hsum, hchunks⟩ | h
    · left
      refine ⟨h0, hall, ?_, ?_⟩
      · rw [hsum]; rfl
      · rw [hchunks]; rfl
    · exact Or.inr h
  · intro hok
    rcases hres with ⟨h0, _⟩ | ⟨_, oks, bad, hends, _, hbad⟩
    · exact h0
    · exfalso
      obtain ⟨calls, hc⟩ := end_statuses_reported s.m_i2c_address data length sizes
        s.m_i2c_library 0 bad (by rw [hends]; simp)
      exact hbad (hc.trans (hok calls))

/-- Witness of C12: five bytes sent on a 16x16 panel whose transport accepts at
most two bytes per `write` call and acknowledges every transaction. -/
theorem data_send_chunked_witness :
    ∃ (sizes : List Nat) (r : Int),
      (panel 16 16 0 wire_two_bytes).data_send 5 [1, 2, 3, 4, 5] 5
        = some (r, (panel 16 16 0 wire_two_bytes).with_bus (wire_two_bytes.advance
            (data_transactions 0x3C [1, 2, 3, 4, 5] 5 0 sizes))) ∧
      reported_sizes 0x3C [1, 2, 3, 4, 5] 5 wire_two_bytes 0 sizes ∧
      (∀ a ∈ sizes, 1 ≤ a) ∧
      ((r = 0 ∧
          (∀ st ∈ end_statuses 0x3C [1, 2, 3, 4, 5] 5 wire_two_bytes 0 sizes, st = 0) ∧
          sizes.sum = 5 ∧
          (accepted_chunks [1, 2, 3, 4, 5] 0 sizes).flatten = [1, 2, 3, 4, 5].take 5) ∨
        (r = -EIO_errno ∧ ∃ oks bad,
          end_statuses 0x3C [1, 2, 3, 4, 5] 5 wire_two_bytes 0 sizes = oks ++ [bad] ∧
          (∀ st ∈ oks, st = 0) ∧ bad ≠ 0)) ∧
      ((∀ calls, wire_two_bytes.status calls = 0) → r = 0) :=
  data_send_chunked (panel 16 16 0 wire_two_bytes) [1, 2, 3, 4, 5] 5 5 rfl (by decide)
    (by decide) (fun calls d q hq => accept_at_most_bounds 2 (by decide) calls d q hq)

end ssd1306
